import Mathlib

/-!
Shallow embedding of the `pystchrt` hierarchical state-machine engine
(`src/fsm.py`, `src/hsm.py`).

Events are classified by runtime type and carry no data the engine uses, so
an event is embedded as its type tag (`EventType`).  Guards are pure
functions of the event; a guard slot may be unset (`none`) and a guard call
may return a non-boolean (`GuardVal.nonBool`), mirroring the two assertion
failures of `EventHandlerWithGuardAndEffect`.  Effects/actions are opaque
side-effecting callables: the embedding records each guard and effect
invocation, together with every mutation of a state's `_active` flag and
every `enter()`/`exit()` method call, in an observable trace (`Entry`).
Assertion failures (`PreconditionViolation`), the `IndexError` of
`enter_stack[-1]` on an empty list, and exhaustion of the model's fuel are
the three failure modes (`Failure`).
-/

/-- Runtime type tags of events.  `enter`, `exit`, `unnamed` are the marker
events from `State`; `base` is the `Event` base class itself (passed to the
state-change activity list); `e1`..`e3` stand for user-defined event
classes. -/
inductive EventType
  | enter
  | exit
  | unnamed
  | base
  | e1
  | e2
  | e3
deriving DecidableEq, Repr, Fintype

/-- Value returned by a guard callable: either an actual boolean or
something that is not a `bool` (which `__assertGuardResultIsBoolean`
rejects). -/
inductive GuardVal
  | bool (b : Bool)
  | nonBool
deriving DecidableEq, Repr

/-- `true` iff the guard returned an actual boolean. -/
def GuardVal.isBool : GuardVal → Bool
  | .bool _ => true
  | .nonBool => false

/-- Observable steps taken by the engine.  `guardCall i` / `effectCall i`
record that the guard / effect of the handler labelled `i` was invoked;
`setActive sid b` records an assignment to state `sid`'s `_active` flag;
`enterCall sid` / `exitCall sid` record that the `enter()` / `exit()`
method of state `sid` was invoked. -/
inductive Entry
  | guardCall (id : Nat)
  | effectCall (id : Nat)
  | setActive (sid : Nat) (b : Bool)
  | enterCall (sid : Nat)
  | exitCall (sid : Nat)
deriving DecidableEq, Repr

/-- Failure modes of the embedded engine: a failed `assert`
(`PreconditionViolation`), the `IndexError` raised by `enter_stack[-1]` on
an empty enter stack, and running out of model fuel (a model artifact with
no Python counterpart: Python would loop/recurse instead). -/
inductive Failure
  | precondition
  | emptyEnterStack
  | outOfFuel
deriving DecidableEq, Repr

/-- Result of one handler processing one event
(`EventHandlerResult` / `TransitionResult`).  An `ActivityResult` is
embedded with `target = none` (the attribute is absent in Python). -/
structure HandlerResult where
  handler_triggered : Bool
  target : Option Nat
deriving DecidableEq, Repr

/-- The canonical untriggered result
(`buildResultForUntriggeredTransition` / `...Activity`). -/
def untriggeredResult : HandlerResult := ⟨false, none⟩

/-- One event handler (`EventHandlerWithGuardAndEffect`).  `guard` is
`None` or a callable returning a `GuardVal`; `effectSet` records whether
the `effect` slot holds a callable (its behaviour is the trace entry
`effectCall id`); `target` is the transition target (`none` for
activities, which have no target attribute). -/
structure Handler where
  guard : Option (EventType → GuardVal)
  effectSet : Bool
  id : Nat
  target : Option Nat

/-- `EventHandlerWithGuardAndEffect.process_event`: store the event,
assert the guard is set and evaluate it, assert its result is a boolean,
assert the effect is set (note: BEFORE consulting the guard result), run
the effect only if the guard returned `True`, and build the result from
the guard outcome (for a transition, the target is attached only when
triggered). -/
def Handler.process_event (h : Handler) (e : EventType) :
    List Entry × Except Failure HandlerResult :=
  match h.guard with
  | none => ([], .error .precondition)
  | some g =>
    match g e with
    | .nonBool => ([.guardCall h.id], .error .precondition)
    | .bool b =>
      if h.effectSet then
        if b then
          ([.guardCall h.id, .effectCall h.id],
            .ok { handler_triggered := b, target := h.target })
        else
          ([.guardCall h.id], .ok { handler_triggered := b, target := none })
      else
        ([.guardCall h.id], .error .precondition)

/-- `true` iff processing `e` would trigger this handler: the guard is set
and returns the boolean `True`. -/
def Handler.triggers (h : Handler) (e : EventType) : Bool :=
  match h.guard with
  | some g =>
    match g e with
    | .bool b => b
    | .nonBool => false
  | none => false

/-- A well-formed (fully authored) handler: the guard is set and returns a
boolean on every event, and the effect is set. -/
def Handler.wf (h : Handler) : Bool :=
  (match h.guard with
   | some g => decide (∀ e, (g e).isBool = true)
   | none => false)
  && h.effectSet

/-- The always-true guard `alwaysTrueGuard`. -/
def alwaysTrueGuard : EventType → GuardVal := fun _ => .bool true

/-- The unconditional transition `Transition(target)` (guard
`alwaysTrueGuard`, effect `nop`, labelled 0). -/
def mkSimpleTransition (target : Nat) : Handler :=
  { guard := some alwaysTrueGuard, effectSet := true, id := 0,
    target := some target }

/-- `EventHandlerList`: an ordered list of handlers of one kind, a
stop-at-first-trigger policy flag, and the canonical untriggered response
returned when no handler triggers.  `TransitionList` instances have
`stop_at_first_trigger = true`, `ActivityList` instances `false`; both use
`untriggeredResult` as their untriggered response. -/
structure HandlerList where
  handlers : List Handler
  stop_at_first_trigger : Bool
  untriggered_response : HandlerResult

/-- The loop body of `EventHandlerList.process_event`: walk the handlers
in registration order carrying `last_result`; a triggered result replaces
`last_result`, and with `stop_at_first_trigger` the walk breaks at the
first trigger.  An assertion failure in a handler propagates with the
trace accumulated so far. -/
def processHandlers (stop : Bool) (e : EventType) :
    List Handler → HandlerResult → List Entry × Except Failure HandlerResult
  | [], last => ([], .ok last)
  | h :: rest, last =>
    match h.process_event e with
    | (tr, .error v) => (tr, .error v)
    | (tr, .ok r) =>
      if r.handler_triggered then
        if stop then (tr, .ok r)
        else
          let (tr2, out) := processHandlers stop e rest r
          (tr ++ tr2, out)
      else
        let (tr2, out) := processHandlers stop e rest last
        (tr ++ tr2, out)

/-- `EventHandlerList.process_event`. -/
def HandlerList.process_event (l : HandlerList) (e : EventType) :
    List Entry × Except Failure HandlerResult :=
  processHandlers l.stop_at_first_trigger e l.handlers l.untriggered_response

/-- All handlers of the list are well formed. -/
def HandlerList.wf (l : HandlerList) : Bool :=
  l.handlers.all Handler.wf

/-- `EventDictOfHandlerLists`: a mapping from exact event type to handler
list.  The owning kind's canonical untriggered result (used when no list
is registered for the event's type) is `untriggeredResult` for both
transition and activity dicts, so it is not stored per dict. -/
structure EventDict where
  list_dict : List (EventType × HandlerList)

/-- Exact-runtime-type lookup (`__getitem__` via `get_object_class`). -/
def EventDict.find? (d : EventDict) (e : EventType) : Option HandlerList :=
  (d.list_dict.find? (fun p => p.1 = e)).map (·.2)

/-- `EventDictOfHandlerLists.process_event`: dispatch to the list
registered for the event's exact type, or return the canonical
untriggered result if none is registered. -/
def EventDict.process_event (d : EventDict) (e : EventType) :
    List Entry × Except Failure HandlerResult :=
  match d.find? e with
  | some handler_list => handler_list.process_event e
  | none => ([], .ok untriggeredResult)

/-- `EventDictOfHandlerLists.add_handler`: create the (empty) list for the
event type on first use — with the dict's list type, i.e. its
stop-at-first-trigger policy — then append the handler to it. -/
def EventDict.add_handler (d : EventDict) (stop : Bool) (e : EventType)
    (h : Handler) : EventDict :=
  match d.find? e with
  | some _ =>
    { d with list_dict := d.list_dict.map (fun p =>
        if p.1 = e then (p.1, { p.2 with handlers := p.2.handlers ++ [h] })
        else p) }
  | none =>
    { d with list_dict :=
        d.list_dict ++ [(e, ⟨[h], stop, untriggeredResult⟩)] }

/-- All lists of the dict are well formed. -/
def EventDict.wf (d : EventDict) : Bool :=
  d.list_dict.all (fun p => p.2.wf)

/-- An empty transition dict (`EventDictOfTransitions`). -/
def emptyTransitions : EventDict := ⟨[]⟩

/-- An empty activity dict (`EventDictOfActivities`). -/
def emptyActivities : EventDict := ⟨[]⟩

/-- `TransitionAndActivityResult`: the two independent outcomes of one
`State.process_event` call. -/
structure TAResult where
  activity : HandlerResult
  transition : HandlerResult
deriving DecidableEq, Repr

/-- `TransitionAndActivityResult.was_transition_requested`. -/
def TAResult.was_transition_requested (r : TAResult) : Bool :=
  r.transition.target.isSome

/-- `TransitionAndActivityResult.did_act`. -/
def TAResult.did_act (r : TAResult) : Bool :=
  r.activity.handler_triggered

/-- `TransitionAndActivityResult.did_act_or_requested_transition`. -/
def TAResult.did_act_or_requested_transition (r : TAResult) : Bool :=
  r.was_transition_requested || r.did_act

/-- `TransitionAndActivityResult.buildUntriggeredActivityAndTransition`. -/
def untriggeredTA : TAResult := ⟨untriggeredResult, untriggeredResult⟩

/-- `State` (the per-state data): one activity dict, one transition dict,
and the `_active` flag. -/
structure StateRec where
  activities : EventDict
  transitions : EventDict
  active : Bool

/-- `State.process_event`: dispatch the event to the activities dict, then
to the transitions dict, and bundle both outcomes. -/
def StateRec.process_event (s : StateRec) (e : EventType) :
    List Entry × Except Failure TAResult :=
  match s.activities.process_event e with
  | (tr, .error v) => (tr, .error v)
  | (tr, .ok activity_res) =>
    match s.transitions.process_event e with
    | (tr2, .error v) => (tr ++ tr2, .error v)
    | (tr2, .ok transition_res) =>
      (tr ++ tr2, .ok ⟨activity_res, transition_res⟩)

/-- `State.enter`: set `_active = True`, then process the Enter event.
The leading `enterCall` entry marks the method invocation itself. -/
def StateRec.enter (s : StateRec) (sid : Nat) :
    StateRec × List Entry × Except Failure TAResult :=
  let s1 : StateRec := { s with active := true }
  let p := s1.process_event .enter
  (s1, .enterCall sid :: .setActive sid true :: p.1, p.2)

/-- `State.exit`: process the Exit event (note: through BOTH dicts, the
transitions dict included), then set `_active = False`; an assertion
failure during the dispatch propagates before the flag is cleared. -/
def StateRec.exit (s : StateRec) (sid : Nat) :
    StateRec × List Entry × Except Failure TAResult :=
  match s.process_event .exit with
  | (tr, .error v) => (s, .exitCall sid :: tr, .error v)
  | (tr, .ok r) =>
    ({ s with active := false },
      .exitCall sid :: tr ++ [.setActive sid false], .ok r)

/-- Both dicts of the state are well formed. -/
def StateRec.wf (s : StateRec) : Bool :=
  s.activities.wf && s.transitions.wf

/-- `true` iff the state's own (`fsm.State`) dispatch of `e` succeeds with
neither an activity triggered nor a transition requested. -/
def StateRec.localUntriggered (s : StateRec) (e : EventType) : Bool :=
  match (s.process_event e).2 with
  | .ok r => !r.did_act_or_requested_transition
  | .error _ => false

/-- A well-formed handler's processing never fails: it triggers exactly
when its guard returns `True`, running the effect in that case. -/
theorem Handler.wf_process (h : Handler) (hwf : h.wf = true) (e : EventType) :
    h.process_event e =
      if h.triggers e then
        ([.guardCall h.id, .effectCall h.id], .ok ⟨true, h.target⟩)
      else ([.guardCall h.id], .ok ⟨false, none⟩) := by
  unfold Handler.wf at hwf
  cases hg : h.guard with
  | none => rw [hg] at hwf; simp at hwf
  | some g =>
    rw [hg] at hwf
    simp only [Bool.and_eq_true, decide_eq_true_eq] at hwf
    obtain ⟨hall, heff⟩ := hwf
    cases hge : g e with
    | nonBool =>
      have hb := hall e
      rw [hge] at hb
      simp [GuardVal.isBool] at hb
    | bool b =>
      simp only [Handler.process_event, Handler.triggers, hg, hge, heff,
        if_true]
      cases b <;> simp

/-- A non-triggering well-formed handler leaves `last_result` alone. -/
theorem Handler.wf_process_not_triggered (h : Handler) (hwf : h.wf = true)
    (e : EventType) (hnt : h.triggers e = false) :
    h.process_event e = ([.guardCall h.id], .ok ⟨false, none⟩) := by
  rw [Handler.wf_process h hwf e, hnt]
  simp


/-- C6 (amended): for every guarded handler, `process_event(e)` evaluates
the guard before any effect and invokes the effect at most once and only
when the guard returned true; it fails with a `PreconditionViolation`
exactly when the guard is unset, the guard's result is not a boolean, or
the effect is unset — the unset-effect assertion fires whenever the guard
evaluation succeeds, regardless of the guard's outcome (the effect-is-set
assertion precedes the guard-result check); otherwise it returns a result
of the handler's declared kind carrying the guard outcome. -/
theorem guarded_handler_process_event_spec (h : Handler) (e : EventType) :
    ((h.process_event e).1 = [] ∨
      (h.process_event e).1 = [.guardCall h.id] ∨
      (h.process_event e).1 = [.guardCall h.id, .effectCall h.id]) ∧
    (Entry.effectCall h.id ∈ (h.process_event e).1 ↔
      (∃ g, h.guard = some g ∧ g e = .bool true ∧ h.effectSet = true)) ∧
    ((h.process_event e).2 = .error .precondition ↔
      (h.guard = none ∨ (∃ g, h.guard = some g ∧ g e = .nonBool) ∨
        h.effectSet = false)) ∧
    (∀ r, (h.process_event e).2 = .ok r →
      ∃ g b, h.guard = some g ∧ g e = .bool b ∧ h.effectSet = true ∧
        r.handler_triggered = b ∧
        r.target = if b then h.target else none) ∧
    (∀ g b, h.guard = some g → g e = .bool b → h.effectSet = false →
      (h.process_event e).2 = .error .precondition) := by
  cases hg : h.guard with
  | none =>
    have hpe : h.process_event e = ([], .error .precondition) := by
      simp [Handler.process_event, hg]
    refine ⟨?_, ?_, ?_, ?_, ?_⟩ <;> simp [hpe, hg]
  | some g =>
    cases hge : g e with
    | nonBool =>
      have hpe : h.process_event e =
          ([.guardCall h.id], .error .precondition) := by
        simp [Handler.process_event, hg, hge]
      refine ⟨?_, ?_, ?_, ?_, ?_⟩ <;> simp [hpe, hg, hge]
    | bool b =>
      cases heff : h.effectSet with
      | false =>
        have hpe : h.process_event e =
            ([.guardCall h.id], .error .precondition) := by
          simp [Handler.process_event, hg, hge, heff]
        refine ⟨?_, ?_, ?_, ?_, ?_⟩ <;> simp [hpe, hg, hge, heff]
      | true =>
        cases b with
        | false =>
          have hpe : h.process_event e =
              ([.guardCall h.id], .ok ⟨false, none⟩) := by
            simp [Handler.process_event, hg, hge, heff]
          refine ⟨?_, ?_, ?_, ?_, ?_⟩
          · simp [hpe]
          · simp [hpe, hg, hge]
          · simp [hpe, hg, hge, heff]
          · rintro r hr
            rw [hpe] at hr
            cases hr
            exact ⟨g, false, rfl, hge, rfl, rfl, by simp⟩
          · intro g' b' _ _ habs
            simp at habs
        | true =>
          have hpe : h.process_event e =
              ([.guardCall h.id, .effectCall h.id],
                .ok ⟨true, h.target⟩) := by
            simp [Handler.process_event, hg, hge, heff]
          refine ⟨?_, ?_, ?_, ?_, ?_⟩
          · simp [hpe]
          · simp only [hpe, List.mem_cons, List.mem_singleton]
            constructor
            · intro _
              exact ⟨g, by simp, hge, by simp⟩
            · intro _
              exact Or.inr (Or.inl (by simp))
          · simp [hpe, hg, hge, heff]
          · rintro r hr
            rw [hpe] at hr
            cases hr
            exact ⟨g, true, rfl, hge, rfl, rfl, by simp⟩
          · intro g' b' _ _ habs
            simp at habs

/-- A handler whose guard is set and returns `False` on every event, but
whose effect slot is unset (`effect = None`). -/
def guardFalseNoEffectHandler : Handler :=
  { guard := some (fun _ => .bool false), effectSet := false, id := 5,
    target := none }

/-- C6 counterexample: the guard is set and returns the boolean `False`
(so per the claim the unset effect should not matter and no failure should
arise), yet `process_event` fails with a `PreconditionViolation`, because
`__assertEffectIsNotNone` runs before the guard result is consulted. -/
theorem guarded_handler_unset_effect_counterexample :
    (∃ g, guardFalseNoEffectHandler.guard = some g ∧ g .e1 = .bool false) ∧
    (guardFalseNoEffectHandler.process_event .e1).2 =
      .error .precondition :=
  ⟨⟨fun _ => .bool false, rfl, rfl⟩, rfl⟩

/-- With a stop-at-first-trigger policy, a prefix of well-formed
non-triggering handlers followed by a triggering handler makes
`processHandlers` return the triggering handler's result; the trace is
exactly the prefix's guard probes plus the triggering handler's guard and
effect — nothing after the trigger runs. -/
theorem processHandlers_first_trigger (e : EventType) (last : HandlerResult)
    (pre : List Handler) :
    ∀ (h0 : Handler) (post : List Handler),
      (∀ h' ∈ pre, h'.wf = true ∧ h'.triggers e = false) →
      h0.wf = true → h0.triggers e = true →
      processHandlers true e (pre ++ h0 :: post) last =
        (((pre ++ [h0]).map (fun h => (h.process_event e).1)).flatten,
          .ok ⟨true, h0.target⟩) := by
  induction pre with
  | nil =>
    intro h0 post _ hwf0 htr
    have hp : h0.process_event e =
        ([.guardCall h0.id, .effectCall h0.id], .ok ⟨true, h0.target⟩) := by
      rw [Handler.wf_process h0 hwf0 e, htr]
      simp
    simp [processHandlers, hp]
  | cons h t ih =>
    intro h0 post hpre hwf0 htr
    have hh := hpre h (by simp)
    have hp := Handler.wf_process_not_triggered h hh.1 e hh.2
    have ih' := ih h0 post (fun h' hm => hpre h' (by simp [hm])) hwf0 htr
    simp [processHandlers, hp, ih']

/-- With a stop-at-first-trigger policy and no triggering handler,
`processHandlers` probes every guard and returns the carried
`last_result`. -/
theorem processHandlers_none_trigger (e : EventType) (last : HandlerResult) :
    ∀ hs : List Handler,
      (∀ h' ∈ hs, h'.wf = true ∧ h'.triggers e = false) →
      processHandlers true e hs last =
        ((hs.map (fun h => (h.process_event e).1)).flatten, .ok last) := by
  intro hs
  induction hs with
  | nil => intro _; simp [processHandlers]
  | cons h t ih =>
    intro hall
    have hh := hall h (by simp)
    have hp := Handler.wf_process_not_triggered h hh.1 e hh.2
    have ih' := ih (fun h' hm => hall h' (by simp [hm]))
    simp [processHandlers, hp, ih']

/-- C5: for every event `e` and stop-at-first-trigger handler list `L`, if
some handler triggers on `e` (split `L.handlers` as non-triggering prefix
`pre`, first triggering handler `h0`, rest `post`), the first triggered
handler's result is returned and the trace consists exactly of the probes
of `pre` and of `h0` — no handler after `h0` in registration order has its
guard or effect invoked; if no handler triggers, `L`'s canonical
untriggered result is returned. -/
theorem handler_list_stop_at_first_trigger (L : HandlerList) (e : EventType)
    (hstop : L.stop_at_first_trigger = true) :
    (∀ pre h0 post,
        L.handlers = pre ++ h0 :: post →
        (∀ h' ∈ pre, h'.wf = true ∧ h'.triggers e = false) →
        h0.wf = true → h0.triggers e = true →
        L.process_event e =
          (((pre ++ [h0]).map (fun h => (h.process_event e).1)).flatten,
            .ok ⟨true, h0.target⟩)) ∧
    ((∀ h' ∈ L.handlers, h'.wf = true ∧ h'.triggers e = false) →
        L.process_event e =
          ((L.handlers.map (fun h => (h.process_event e).1)).flatten,
            .ok L.untriggered_response)) := by
  constructor
  · intro pre h0 post hsplit hpre hwf0 htr
    rw [HandlerList.process_event, hstop, hsplit]
    exact processHandlers_first_trigger e L.untriggered_response pre h0 post
      hpre hwf0 htr
  · intro hall
    rw [HandlerList.process_event, hstop]
    exact processHandlers_none_trigger e L.untriggered_response L.handlers
      hall

/-- A guarded transition whose guard rejects `e1`. -/
def wGuardFalse : Handler :=
  { guard := some (fun _ => .bool false), effectSet := true, id := 1,
    target := some 8 }

/-- An unguarded transition to state 4. -/
def wGuardTrue : Handler :=
  { guard := some alwaysTrueGuard, effectSet := true, id := 2,
    target := some 4 }

/-- A transition registered after the unguarded one; it must never run. -/
def wAfter : Handler :=
  { guard := some alwaysTrueGuard, effectSet := true, id := 3,
    target := some 9 }

/-- A three-element `TransitionList`. -/
def demoTransitionList : HandlerList :=
  ⟨[wGuardFalse, wGuardTrue, wAfter], true, untriggeredResult⟩

/-- Witness for C5 at a concrete list: the second handler is the first to
trigger, its result (target 4) is returned, and the third handler's guard
and effect never appear in the trace. -/
theorem handler_list_stop_at_first_trigger_witness :
    demoTransitionList.process_event .e1 =
      ([.guardCall 1, .guardCall 2, .effectCall 2], .ok ⟨true, some 4⟩) := by
  have h := (handler_list_stop_at_first_trigger demoTransitionList .e1
      rfl).1 [wGuardFalse] wGuardTrue [wAfter] rfl
      (by decide) (by decide) (by decide)
  rw [h]
  rfl

/-- `true` on `setActive` trace entries. -/
def Entry.isSetActive : Entry → Bool
  | .setActive _ _ => true
  | _ => false

/-- `true` on `effectCall` trace entries. -/
def Entry.isEffectCall : Entry → Bool
  | .effectCall _ => true
  | _ => false

/-- The flag value a side effect would observe through `is_active()` after
the given trace prefix has executed, starting from flag value `b`. -/
def observedActive (sid : Nat) : Bool → List Entry → Bool
  | b, [] => b
  | b, .setActive s' b' :: rest =>
    observedActive sid (if s' = sid then b' else b) rest
  | b, _ :: rest => observedActive sid b rest

/-- A single handler never touches an active flag. -/
theorem Handler.process_no_setActive (h : Handler) (e : EventType) :
    ((h.process_event e).1).all (fun x => !x.isSetActive) = true := by
  cases hg : h.guard with
  | none => simp [Handler.process_event, hg]
  | some g =>
    cases hge : g e with
    | nonBool => simp [Handler.process_event, hg, hge, Entry.isSetActive]
    | bool b =>
      cases heff : h.effectSet <;> cases b <;>
        simp [Handler.process_event, hg, hge, heff, Entry.isSetActive]

/-- The handler-list walk never touches an active flag. -/
theorem processHandlers_no_setActive (stop : Bool) (e : EventType) :
    ∀ (hs : List Handler) (last : HandlerResult),
      ((processHandlers stop e hs last).1).all (fun x => !x.isSetActive) =
        true := by
  intro hs
  induction hs with
  | nil => intro last; simp [processHandlers]
  | cons h t ih =>
    intro last
    have hh := Handler.process_no_setActive h e
    rcases hp : h.process_event e with ⟨tr, res⟩
    rw [hp] at hh
    cases res with
    | error v => simp [processHandlers, hp, hh]
    | ok r =>
      by_cases hr : r.handler_triggered = true
      · cases stop with
        | true => simp [processHandlers, hp, hr, hh]
        | false => simp [processHandlers, hp, hr, hh, ih]
      · simp at hr
        simp [processHandlers, hp, hr, hh, ih]

/-- An event-dict dispatch never touches an active flag. -/
theorem EventDict.process_event_no_setActive (d : EventDict) (e : EventType) :
    ((d.process_event e).1).all (fun x => !x.isSetActive) = true := by
  rw [EventDict.process_event]
  cases d.find? e with
  | none => simp
  | some l => exact processHandlers_no_setActive _ e l.handlers _

/-- A `State.process_event` dispatch never touches an active flag: only
`enter()` and `exit()` do. -/
theorem StateRec.state_dispatch_no_setActive (s : StateRec) (e : EventType) :
    ((s.process_event e).1).all (fun x => !x.isSetActive) = true := by
  rw [StateRec.process_event]
  have ha := EventDict.process_event_no_setActive s.activities e
  have ht := EventDict.process_event_no_setActive s.transitions e
  rcases hpa : s.activities.process_event e with ⟨tr, res⟩
  rw [hpa] at ha
  cases res with
  | error v => simpa using ha
  | ok a =>
    rcases hpt : s.transitions.process_event e with ⟨tr2, res2⟩
    rw [hpt] at ht
    cases res2 with
    | error v => simp only []; rw [List.all_append]; simp [ha, ht]
    | ok t => simp only []; rw [List.all_append]; simp [ha, ht]

/-- Over a trace that contains no `setActive` entry, the observed flag is
constant. -/
theorem observedActive_const (sid : Nat) :
    ∀ (tr : List Entry) (b : Bool),
      tr.all (fun x => !x.isSetActive) = true →
      observedActive sid b tr = b := by
  intro tr
  induction tr with
  | nil => intro b _; rfl
  | cons x rest ih =>
    intro b hall
    simp only [List.all_cons, Bool.and_eq_true] at hall
    cases x with
    | setActive s' b' => simp [Entry.isSetActive] at hall
    | guardCall i => exact ih b hall.2
    | effectCall i => exact ih b hall.2
    | enterCall i => exact ih b hall.2
    | exitCall i => exact ih b hall.2

/-- A prefix of a `setActive`-free trace is `setActive`-free. -/
theorem all_take {tr : List Entry} {p : Entry → Bool}
    (h : tr.all p = true) (n : Nat) : (tr.take n).all p = true := by
  rw [List.all_eq_true] at h ⊢
  intro x hx
  exact h x (List.mem_of_mem_take hx)

/-- C7: for every state with `_active` initially false, `enter()` sets the
flag true before dispatching the Enter event, so every effect invoked
during the enter dispatch observes `is_active() = true`; `exit()`
dispatches the Exit event before clearing the flag, so every effect
invoked during the exit dispatch observes `is_active() = true`; and the
flag is true exactly between the two points: it is false before `enter()`
(hypothesis), true after `enter()`, and false once `exit()` completes. -/
theorem state_enter_exit_active_window (s : StateRec) (sid : Nat)
    (hinactive : s.active = false) :
    ((s.enter sid).1.active = true) ∧
    (∀ i x, ((s.enter sid).2.1)[i]? = some x → x.isEffectCall = true →
      observedActive sid s.active (((s.enter sid).2.1).take i) = true) ∧
    (∀ i x, (((s.enter sid).1.exit sid).2.1)[i]? = some x →
      x.isEffectCall = true →
      observedActive sid (s.enter sid).1.active
        ((((s.enter sid).1.exit sid).2.1).take i) = true) ∧
    (∀ r, ((s.enter sid).1.exit sid).2.2 = .ok r →
      ((s.enter sid).1.exit sid).1.active = false) := by
  have hd : ((({ s with active := true } : StateRec).process_event
      .enter).1).all (fun x => !x.isSetActive) = true :=
    StateRec.state_dispatch_no_setActive _ .enter
  refine ⟨rfl, ?_, ?_, ?_⟩
  · intro i x hx hxe
    have het : (s.enter sid).2.1 =
        .enterCall sid :: .setActive sid true ::
          (({ s with active := true } : StateRec).process_event .enter).1 :=
      rfl
    rw [het] at hx ⊢
    match i with
    | 0 =>
      simp only [List.getElem?_cons_zero, Option.some.injEq] at hx
      rw [← hx] at hxe
      simp [Entry.isEffectCall] at hxe
    | 1 =>
      simp only [List.getElem?_cons_succ, List.getElem?_cons_zero,
        Option.some.injEq] at hx
      rw [← hx] at hxe
      simp [Entry.isEffectCall] at hxe
    | (i + 2) =>
      simp only [List.getElem?_cons_succ] at hx
      simp only [List.take_succ_cons, observedActive, if_pos rfl]
      exact observedActive_const sid _ true (all_take hd i)
  · intro i x hx hxe
    rcases hpx : (({ s with active := true } : StateRec).process_event
        .exit) with ⟨tr, res⟩
    have hdt : tr.all (fun x => !x.isSetActive) = true := by
      have h0 := StateRec.state_dispatch_no_setActive
        ({ s with active := true } : StateRec) .exit
      rw [hpx] at h0
      exact h0
    have hx1 : ((s.enter sid).1.exit sid) =
        (({ s with active := true } : StateRec).exit sid) := rfl
    rw [hx1] at hx ⊢
    cases res with
    | error v =>
      have hsh : (({ s with active := true } : StateRec).exit sid).2.1 =
          .exitCall sid :: tr := by
        simp [StateRec.exit, hpx]
      rw [hsh] at hx ⊢
      match i with
      | 0 =>
        simp only [List.getElem?_cons_zero, Option.some.injEq] at hx
        rw [← hx] at hxe
        simp [Entry.isEffectCall] at hxe
      | (j + 1) =>
        simp only [List.take_succ_cons, observedActive]
        exact observedActive_const sid _ _ (all_take hdt j)
    | ok r =>
      have hsh : (({ s with active := true } : StateRec).exit sid).2.1 =
          .exitCall sid :: tr ++ [.setActive sid false] := by
        simp [StateRec.exit, hpx]
      rw [hsh] at hx ⊢
      match i with
      | 0 =>
        simp only [List.cons_append, List.getElem?_cons_zero,
          Option.some.injEq] at hx
        rw [← hx] at hxe
        simp [Entry.isEffectCall] at hxe
      | (j + 1) =>
        simp only [List.cons_append, List.getElem?_cons_succ] at hx
        by_cases hj : j < tr.length
        · simp only [List.cons_append, List.take_succ_cons, observedActive,
            List.append_eq]
          rw [List.take_append_of_le_length (Nat.le_of_lt hj)]
          exact observedActive_const sid _ _ (all_take hdt j)
        · have hge : tr.length ≤ j := Nat.le_of_not_lt hj
          rw [List.getElem?_append_right hge] at hx
          cases hdiff : j - tr.length with
          | zero =>
            rw [hdiff] at hx
            simp only [List.getElem?_cons_zero, Option.some.injEq] at hx
            rw [← hx] at hxe
            simp [Entry.isEffectCall] at hxe
          | succ k =>
            rw [hdiff] at hx
            simp at hx
  · intro r hr
    rcases hpx : (({ s with active := true } : StateRec).process_event
        .exit) with ⟨tr, res⟩
    have hx1 : ((s.enter sid).1.exit sid) =
        (({ s with active := true } : StateRec).exit sid) := rfl
    rw [hx1] at hr ⊢
    cases res with
    | error v =>
      rw [show (({ s with active := true } : StateRec).exit sid).2.2 =
          .error v from by simp [StateRec.exit, hpx]] at hr
      cases hr
    | ok r' =>
      simp [StateRec.exit, hpx]

/-- A concrete state with one enter-activity (label 21) and one
exit-activity (label 22). -/
def demoState : StateRec :=
  { activities :=
      ⟨[(.enter, ⟨[⟨some alwaysTrueGuard, true, 21, none⟩], false,
          untriggeredResult⟩),
        (.exit, ⟨[⟨some alwaysTrueGuard, true, 22, none⟩], false,
          untriggeredResult⟩)]⟩,
    transitions := ⟨[]⟩,
    active := false }

/-- Witness for C7: entering `demoState` flips the flag to true, and the
enter-activity's effect (the entry at index 3 of the enter trace)
observes `is_active() = true`. -/
theorem state_enter_exit_active_window_witness :
    (demoState.enter 3).1.active = true ∧
    observedActive 3 demoState.active (((demoState.enter 3).2.1).take 3) =
      true :=
  ⟨(state_enter_exit_active_window demoState 3 rfl).1,
    (state_enter_exit_active_window demoState 3 rfl).2.1 3
      (.effectCall 21) (by decide) (by decide)⟩

/-- A walk over well-formed handlers never raises. -/
theorem processHandlers_wf_ok (stop : Bool) (e : EventType) :
    ∀ (hs : List Handler) (last : HandlerResult),
      hs.all Handler.wf = true →
      ∃ tr r, processHandlers stop e hs last = (tr, .ok r) := by
  intro hs
  induction hs with
  | nil => intro last _; exact ⟨[], last, rfl⟩
  | cons h t ih =>
    intro last hall
    simp only [List.all_cons, Bool.and_eq_true] at hall
    have hp := Handler.wf_process h hall.1 e
    by_cases htr : h.triggers e = true
    · rw [htr, if_pos rfl] at hp
      cases stop with
      | true =>
        exact ⟨[.guardCall h.id, .effectCall h.id], ⟨true, h.target⟩,
          by simp [processHandlers, hp]⟩
      | false =>
        obtain ⟨tr2, r2, h2⟩ := ih ⟨true, h.target⟩ hall.2
        exact ⟨.guardCall h.id :: .effectCall h.id :: tr2, r2,
          by simp [processHandlers, hp, h2]⟩
    · simp only [Bool.not_eq_true] at htr
      rw [htr] at hp
      simp only [if_false, Bool.false_eq_true] at hp
      obtain ⟨tr2, r2, h2⟩ := ih last hall.2
      exact ⟨.guardCall h.id :: tr2, r2,
        by simp [processHandlers, hp, h2]⟩

/-- A well-formed handler list never raises. -/
theorem HandlerList.wf_list_process_ok (l : HandlerList) (e : EventType)
    (hwf : l.wf = true) :
    ∃ tr r, l.process_event e = (tr, .ok r) :=
  processHandlers_wf_ok l.stop_at_first_trigger e l.handlers
    l.untriggered_response hwf

/-- A well-formed event dict never raises. -/
theorem EventDict.wf_dict_process_ok (d : EventDict) (e : EventType)
    (hwf : d.wf = true) :
    ∃ tr r, d.process_event e = (tr, .ok r) := by
  rw [EventDict.process_event]
  cases hf : d.find? e with
  | none => exact ⟨[], untriggeredResult, rfl⟩
  | some l =>
    apply HandlerList.wf_list_process_ok l e
    rw [EventDict.find?] at hf
    rcases ho : d.list_dict.find? (fun p => p.1 = e) with _ | pr
    · rw [ho] at hf
      simp at hf
    · rw [ho] at hf
      simp at hf
      rw [EventDict.wf, List.all_eq_true] at hwf
      have hw := hwf pr (List.mem_of_find?_eq_some ho)
      rw [hf] at hw
      exact hw

/-- A well-formed state's own dispatch never raises. -/
theorem StateRec.wf_state_process_ok (s : StateRec) (e : EventType)
    (hwf : s.wf = true) :
    ∃ tr r, s.process_event e = (tr, .ok r) := by
  rw [StateRec.wf, Bool.and_eq_true] at hwf
  obtain ⟨tra, ra, hra⟩ := EventDict.wf_dict_process_ok s.activities e hwf.1
  obtain ⟨trt, rt, hrt⟩ := EventDict.wf_dict_process_ok s.transitions e hwf.2
  exact ⟨tra ++ trt, ⟨ra, rt⟩, by simp [StateRec.process_event, hra, hrt]⟩

/-- Processing the singleton list holding just the unconditional
to-final transition triggers it. -/
theorem singleton_transition_process (f : Nat) (e : EventType) :
    HandlerList.process_event ⟨[mkSimpleTransition f], true,
      untriggeredResult⟩ e =
      ([.guardCall 0, .effectCall 0], .ok ⟨true, some f⟩) := rfl

/-- Registering a handler for an event type with no previous list creates
a fresh singleton list for it. -/
theorem find?_add_handler_same (d : EventDict) (stop : Bool)
    (e : EventType) (h : Handler) (hmiss : d.find? e = none) :
    (d.add_handler stop e h).find? e =
      some ⟨[h], stop, untriggeredResult⟩ := by
  have hnone : d.list_dict.find? (fun p => p.1 = e) = none := by
    rw [EventDict.find?] at hmiss
    rcases ho : d.list_dict.find? (fun p => p.1 = e) with _ | pr
    · exact ho
    · rw [ho] at hmiss
      simp at hmiss
  rw [EventDict.add_handler, hmiss, EventDict.find?]
  simp only [List.find?_append, hnone, Option.none_or]
  simp

/-- `StateEventHandlingResult`: the bundle built by the flat FSM's
`_dipatch_to_current`.  NOTE: its `was_transition_requested` reads the
ENTER result (as in the Python source), not the event result. -/
structure StateEventHandlingResult where
  event_res : TAResult
  enter_res : TAResult
  exit_res : TAResult
deriving DecidableEq, Repr

/-- `StateEventHandlingResult.was_transition_requested`. -/
def StateEventHandlingResult.was_transition_requested
    (r : StateEventHandlingResult) : Bool :=
  r.enter_res.was_transition_requested

/-- The flat `FSM`: states are identified by `Nat` ids resolved through
`stateMap` (object identity in Python); `initialId`/`finalId` are the two
pseudostates; `current` is the current-state pointer;
`state_change_activities` is the "on transition completed" activity
list. -/
structure FSMRec where
  stateMap : Nat → StateRec
  initialId : Nat
  finalId : Nat
  current : Nat
  state_change_activities : HandlerList

/-- Replace one state's record (in-place mutation of the Python object). -/
def FSMRec.updState (m : FSMRec) (sid : Nat) (s : StateRec) : FSMRec :=
  { m with stateMap := fun x => if x = sid then s else m.stateMap x }

/-- `FSM._dipatch_to_current`: dispatch the event to the current state; on
a requested transition, exit the current state, move `current` to the
target, enter it, notify the state-change activity list, and arm the
`send_unnamed` flag. -/
def FSMRec.dipatch_to_current (m : FSMRec) (e : EventType) :
    FSMRec × List Entry × Except Failure (StateEventHandlingResult × Bool) :=
  match (m.stateMap m.current).process_event e with
  | (tr, .error v) => (m, tr, .error v)
  | (tr, .ok event_res) =>
    match event_res.transition.target with
    | none =>
      (m, tr, .ok (⟨event_res, untriggeredTA, untriggeredTA⟩, false))
    | some t =>
      match (m.stateMap m.current).exit m.current with
      | (s', tr2, .error v) =>
        (m.updState m.current s', tr ++ tr2, .error v)
      | (s', tr2, .ok exit_res) =>
        let m1 : FSMRec := { m.updState m.current s' with current := t }
        match (m1.stateMap t).enter t with
        | (s2, tr3, .error v) =>
          (m1.updState t s2, tr ++ tr2 ++ tr3, .error v)
        | (s2, tr3, .ok enter_res) =>
          let m2 := m1.updState t s2
          match m2.state_change_activities.process_event .base with
          | (tr4, .error v) => (m2, tr ++ tr2 ++ tr3 ++ tr4, .error v)
          | (tr4, .ok _) =>
            (m2, tr ++ tr2 ++ tr3 ++ tr4,
              .ok (⟨event_res, enter_res, exit_res⟩, true))

/-- `FSM.process_event`: the flat dispatch loop.  After an iteration the
next event is the synthetic Unnamed event whenever a transition occurred
(`send_unnamed`) or the event just dispatched was the Enter event;
otherwise the loop ends unless the iteration's result still requests a
transition (which, reading the enter result, cannot happen without
`send_unnamed`).  `fuel` bounds the number of iterations (model
artifact). -/
def FSMRec.process_event :
    Nat → FSMRec → EventType →
      FSMRec × List Entry × Except Failure StateEventHandlingResult
  | 0, m, _ => (m, [], .error .outOfFuel)
  | fuel + 1, m, e =>
    match m.dipatch_to_current e with
    | (m1, tr, .error v) => (m1, tr, .error v)
    | (m1, tr, .ok (state_res, send_unnamed)) =>
      if send_unnamed || e = .enter then
        let rec' := FSMRec.process_event fuel m1 .unnamed
        (rec'.1, tr ++ rec'.2.1, rec'.2.2)
      else if state_res.was_transition_requested then
        let rec' := FSMRec.process_event fuel m1 e
        (rec'.1, tr ++ rec'.2.1, rec'.2.2)
      else (m1, tr, .ok state_res)

/-- `FSM.FinalState.add_final_transition_to_other`: unless `other` is the
final pseudostate itself, register an unconditional `Transition` to final
under the Exit event type on `other` — a plain `add_transition`, nothing
ever removes it again. -/
def FSMRec.add_final_transition_to_other (m : FSMRec) (other : Nat) :
    FSMRec :=
  if other ≠ m.finalId then
    m.updState other
      { m.stateMap other with
          transitions := (m.stateMap other).transitions.add_handler true
            .exit (mkSimpleTransition m.finalId) }
  else m

/-- The two result shapes of `FSM.stop`: the loop's
`StateEventHandlingResult`, or the canonical untriggered bundle when
already at final. -/
inductive StopResult
  | loop (r : StateEventHandlingResult)
  | untriggered
deriving DecidableEq, Repr

/-- `FSM.stop`: if not already at final, install the to-final transition
on the current state and dispatch the Exit event through the loop. -/
def FSMRec.stop (fuel : Nat) (m : FSMRec) :
    FSMRec × List Entry × Except Failure StopResult :=
  if m.current ≠ m.finalId then
    let m1 := m.add_final_transition_to_other m.current
    let r := FSMRec.process_event fuel m1 .exit
    (r.1, r.2.1, r.2.2.map .loop)
  else (m, [], .ok .untriggered)

/-- A state that is current and has one Exit-keyed activity (label 7) and
no transitions — the departing state of the `stop()` scenario. -/
def c10State : StateRec :=
  { activities := ⟨[(.exit, ⟨[⟨some alwaysTrueGuard, true, 7, none⟩], false,
      untriggeredResult⟩)]⟩,
    transitions := ⟨[]⟩,
    active := true }

/-- A handler-free final pseudostate. -/
def c10Final : StateRec :=
  ⟨⟨[]⟩, ⟨[]⟩, false⟩

/-- A running flat FSM whose current state is `c10State` (id 1); the
final pseudostate has id 9. -/
def c10Machine : FSMRec :=
  { stateMap := fun sid => if sid = 1 then c10State else c10Final,
    initialId := 0, finalId := 9, current := 1,
    state_change_activities := ⟨[], false, untriggeredResult⟩ }

/-- C10: `State.exit()` dispatches the Exit event to the transitions table
as well as the activities table, so in the flat loop a `stop()` call (the
dispatched Exit event triggering the installed transition) runs the
departing state's Exit-keyed activity (label 7) and the triggering
transition's guard and effect (label 0) twice each within the single call:
once in the event dispatch to the current state and once more inside the
subsequent `exit()`.  The full trace pins both dispatches down, the second
one inside the `exitCall` of state 1. -/
theorem state_exit_redispatch_double_execution :
    (FSMRec.stop 5 c10Machine).2.1 =
      [.guardCall 7, .effectCall 7, .guardCall 0, .effectCall 0,
       .exitCall 1, .guardCall 7, .effectCall 7, .guardCall 0,
       .effectCall 0, .setActive 1 false, .enterCall 9,
       .setActive 9 true] ∧
    ((FSMRec.stop 5 c10Machine).2.1).count (.effectCall 7) = 2 ∧
    ((FSMRec.stop 5 c10Machine).2.1).count (.guardCall 0) = 2 ∧
    ((FSMRec.stop 5 c10Machine).2.1).count (.effectCall 0) = 2 ∧
    (FSMRec.stop 5 c10Machine).1.current = 9 := by
  refine ⟨rfl, ?_, ?_, ?_, rfl⟩ <;> rfl

/-- The departing state of the C4 scenario: no handlers at all. -/
def c4State : StateRec :=
  ⟨⟨[]⟩, ⟨[]⟩, true⟩

/-- A handler-free final pseudostate for the C4 scenario. -/
def c4Final : StateRec :=
  ⟨⟨[]⟩, ⟨[]⟩, false⟩

/-- A running flat FSM for the C4 scenario (current id 1, final id 9). -/
def c4Machine : FSMRec :=
  { stateMap := fun sid => if sid = 1 then c4State else c4Final,
    initialId := 0, finalId := 9, current := 1,
    state_change_activities := ⟨[], false, untriggeredResult⟩ }

/-- C4 counterexample: before `stop()` the current state has no Exit-keyed
transition list; after `stop()` has returned (and reached the final
pseudostate), the installed to-final transition is STILL registered on the
state — one handler, targeting final — so it is not one-shot: it persists
as a permanent handler of the state. -/
theorem fsm_stop_transition_persists_counterexample :
    (c4Machine.stateMap 1).transitions.find? .exit = none ∧
    (((FSMRec.stop 5 c4Machine).1.stateMap 1).transitions.find?
        .exit).map (fun l => l.handlers.length) = some 1 ∧
    ((((FSMRec.stop 5 c4Machine).1.stateMap 1).transitions.find?
        .exit).bind (fun l => l.handlers.head?)).map
      (fun h => h.target) = some (some 9) ∧
    (FSMRec.stop 5 c4Machine).1.current = 9 := by
  refine ⟨rfl, ?_, ?_, rfl⟩ <;> rfl

/-- `exit()` rewritten through an equation for the state's own Exit
dispatch. -/
theorem StateRec.exit_of_process (s : StateRec) (sid : Nat)
    (tr : List Entry) (r : TAResult)
    (hp : s.process_event .exit = (tr, .ok r)) :
    s.exit sid = ({ s with active := false },
      .exitCall sid :: tr ++ [.setActive sid false], .ok r) := by
  simp [StateRec.exit, hp]

/-- `enter()` rewritten through an equation for the flipped state's Enter
dispatch. -/
theorem StateRec.enter_of_process (s : StateRec) (sid : Nat)
    (tr : List Entry) (res : Except Failure TAResult)
    (hp : ({ s with active := true } : StateRec).process_event .enter =
      (tr, res)) :
    s.enter sid = ({ s with active := true },
      .enterCall sid :: .setActive sid true :: tr, res) := by
  rw [StateRec.enter]
  simp only [hp]

/-- `_dipatch_to_current` when the dispatched event requests no
transition: the machine is untouched and `send_unnamed` is false. -/
theorem dipatch_to_current_no_transition (m : FSMRec) (e : EventType)
    (tr : List Entry) (r : TAResult)
    (hpe : (m.stateMap m.current).process_event e = (tr, .ok r))
    (htg : r.transition.target = none) :
    m.dipatch_to_current e =
      (m, tr, .ok (⟨r, untriggeredTA, untriggeredTA⟩, false)) := by
  rw [FSMRec.dipatch_to_current]
  simp only [hpe, htg]

/-- `_dipatch_to_current` when the dispatched event requests a transition
to a distinct target `t`: exit the current state (flag cleared), move
`current` to `t`, enter `t` (flag set before its Enter dispatch), notify
the state-change list, and arm `send_unnamed`. -/
theorem dipatch_to_current_transition (m : FSMRec) (e : EventType)
    (t : Nat) (tr trx trn trg : List Entry) (r rx rn : TAResult)
    (rg : HandlerResult)
    (hpe : (m.stateMap m.current).process_event e = (tr, .ok r))
    (htg : r.transition.target = some t)
    (hexit : (m.stateMap m.current).process_event .exit = (trx, .ok rx))
    (htne : t ≠ m.current)
    (henter : ({ m.stateMap t with active := true } : StateRec).process_event
      .enter = (trn, .ok rn))
    (hg : m.state_change_activities.process_event .base = (trg, .ok rg)) :
    m.dipatch_to_current e =
      (FSMRec.updState
        { m.updState m.current { m.stateMap m.current with active := false }
            with current := t }
        t { m.stateMap t with active := true },
       tr ++ (.exitCall m.current :: trx ++ [.setActive m.current false]) ++
         (.enterCall t :: .setActive t true :: trn) ++ trg,
       .ok (⟨r, rn, rx⟩, true)) := by
  rw [FSMRec.dipatch_to_current]
  simp only [hpe, htg]
  rw [StateRec.exit_of_process _ _ _ _ hexit]
  simp only []
  have hmt : ({ m.updState m.current
      { m.stateMap m.current with active := false } with current := t }
        : FSMRec).stateMap t = m.stateMap t := by
    simp [FSMRec.updState, htne]
  rw [hmt, StateRec.enter_of_process _ _ _ _ henter]
  simp only []
  have hgl : ({ m.updState m.current
      { m.stateMap m.current with active := false } with current := t }
        : FSMRec).state_change_activities = m.state_change_activities := rfl
  rw [show (FSMRec.updState { m.updState m.current
      { m.stateMap m.current with active := false } with current := t }
      t { m.stateMap t with active := true }).state_change_activities =
    m.state_change_activities from rfl, hg]

/-- C4 (amended): `FSM.stop()`, when `current` is not already the final
pseudostate, installs an unconditional transition from the current state
to final and dispatches the Exit event, after which `current` is the final
pseudostate (given a well-formed machine whose current state had no
previously registered Exit transition and whose final pseudostate has no
Unnamed transitions); the installed transition is NOT one-shot: it is
still registered as an ordinary Exit handler of the state after the call
returns. -/
theorem fsm_stop_persistent_transition_reaches_final
    (m : FSMRec) (fuel : Nat)
    (hne : m.current ≠ m.finalId)
    (hnoexit : (m.stateMap m.current).transitions.find? .exit = none)
    (hwfc : (m.stateMap m.current).wf = true)
    (hwff : (m.stateMap m.finalId).wf = true)
    (hwfg : m.state_change_activities.wf = true)
    (hnoun : (m.stateMap m.finalId).transitions.find? .unnamed = none) :
    (FSMRec.stop (fuel + 2) m).1.current = m.finalId ∧
    ((FSMRec.stop (fuel + 2) m).1.stateMap m.current).transitions.find?
        .exit =
      some ⟨[mkSimpleTransition m.finalId], true, untriggeredResult⟩ ∧
    (∃ r, (FSMRec.stop (fuel + 2) m).2.2 = .ok (.loop r)) := by
  have hwfc' := hwfc
  rw [StateRec.wf, Bool.and_eq_true] at hwfc'
  have hwff' := hwff
  rw [StateRec.wf, Bool.and_eq_true] at hwff'
  obtain ⟨tra, ra, hra⟩ :=
    EventDict.wf_dict_process_ok (m.stateMap m.current).activities .exit hwfc'.1
  -- the state after installing the to-final transition
  have hsAddT : ∀ s : StateRec,
      s = { m.stateMap m.current with
        transitions := (m.stateMap m.current).transitions.add_handler true
          .exit (mkSimpleTransition m.finalId) } →
      s.process_event .exit =
        (tra ++ [.guardCall 0, .effectCall 0],
          .ok ⟨ra, ⟨true, some m.finalId⟩⟩) := by
    intro s hs
    have htransd : s.transitions.process_event .exit =
        ([.guardCall 0, .effectCall 0], .ok ⟨true, some m.finalId⟩) := by
      rw [hs]
      show (EventDict.process_event _ _) = _
      rw [EventDict.process_event,
        find?_add_handler_same _ _ _ _ hnoexit]
      exact singleton_transition_process m.finalId .exit
    have hact : s.activities = (m.stateMap m.current).activities := by
      rw [hs]
    rw [StateRec.process_event, hact, hra]
    simp only [htransd]
  set sAdd : StateRec := { m.stateMap m.current with
    transitions := (m.stateMap m.current).transitions.add_handler true
      .exit (mkSimpleTransition m.finalId) } with hsAdd
  have hproc1 := hsAddT sAdd hsAdd
  set M1 : FSMRec := m.updState m.current sAdd with hM1M
  have hadd : m.add_final_transition_to_other m.current = M1 := by
    rw [FSMRec.add_final_transition_to_other, if_pos hne, hM1M, hsAdd]
  have hM1cur : M1.current = m.current := by rw [hM1M]; rfl
  have hM1fin : M1.finalId = m.finalId := by rw [hM1M]; rfl
  have hM1mapc : M1.stateMap m.current = sAdd := by
    rw [hM1M]
    simp [FSMRec.updState]
  have hM1mapf : M1.stateMap m.finalId = m.stateMap m.finalId := by
    rw [hM1M]
    simp only [FSMRec.updState]
    rw [if_neg (fun h => hne h.symm)]
  have hM1g : M1.state_change_activities = m.state_change_activities := by
    rw [hM1M]; rfl
  have hpe1 : (M1.stateMap M1.current).process_event .exit =
      (tra ++ [.guardCall 0, .effectCall 0],
        .ok ⟨ra, ⟨true, some m.finalId⟩⟩) := by
    rw [hM1cur, hM1mapc]; exact hproc1
  obtain ⟨trf, resf, hrf⟩ := StateRec.wf_state_process_ok
    { m.stateMap m.finalId with active := true } .enter hwff
  have henter1 : ({ M1.stateMap m.finalId with active := true } :
      StateRec).process_event .enter = (trf, .ok resf) := by
    rw [hM1mapf]; exact hrf
  obtain ⟨trg, rg, hgd⟩ := HandlerList.wf_list_process_ok
    m.state_change_activities .base hwfg
  have hg1 : M1.state_change_activities.process_event .base =
      (trg, .ok rg) := by rw [hM1g]; exact hgd
  have htne1 : m.finalId ≠ M1.current := by
    rw [hM1cur]; exact Ne.symm hne
  have hd1 := dipatch_to_current_transition M1 .exit m.finalId
    (tra ++ [.guardCall 0, .effectCall 0])
    (tra ++ [.guardCall 0, .effectCall 0]) trf trg
    ⟨ra, ⟨true, some m.finalId⟩⟩ ⟨ra, ⟨true, some m.finalId⟩⟩ resf rg
    hpe1 rfl hpe1 htne1 henter1 hg1
  set M2 : FSMRec := FSMRec.updState
    { M1.updState M1.current { M1.stateMap M1.current with active := false }
        with current := m.finalId }
    m.finalId { M1.stateMap m.finalId with active := true } with hM2M
  have hM2cur : M2.current = m.finalId := by rw [hM2M]; rfl
  have hM2mapf : M2.stateMap m.finalId =
      { m.stateMap m.finalId with active := true } := by
    rw [hM2M]
    simp [FSMRec.updState, hM1mapf]
  have hM2mapc : M2.stateMap m.current = { sAdd with active := false } := by
    rw [hM2M]
    simp [FSMRec.updState, hne, hM1cur, hM1mapc]
  have hM2g : M2.state_change_activities = m.state_change_activities := by
    rw [hM2M]
    show M1.state_change_activities = m.state_change_activities
    exact hM1g
  obtain ⟨tru, ru, hru⟩ := EventDict.wf_dict_process_ok
    (m.stateMap m.finalId).activities .unnamed hwff'.1
  have hpe2 : (M2.stateMap M2.current).process_event .unnamed =
      (tru, .ok ⟨ru, untriggeredResult⟩) := by
    rw [hM2cur, hM2mapf, StateRec.process_event]
    rw [show ({ m.stateMap m.finalId with active := true } :
        StateRec).activities = (m.stateMap m.finalId).activities from rfl,
      hru]
    rw [show ({ m.stateMap m.finalId with active := true } :
        StateRec).transitions = (m.stateMap m.finalId).transitions from
        rfl]
    rw [EventDict.process_event, hnoun]
    simp
  have hd2 := dipatch_to_current_no_transition M2 .unnamed tru
    ⟨ru, untriggeredResult⟩ hpe2 rfl
  have hloop : FSMRec.process_event (fuel + 2) M1 .exit =
      (M2,
       (tra ++ [.guardCall 0, .effectCall 0]) ++
         (.exitCall M1.current ::
           (tra ++ [.guardCall 0, .effectCall 0]) ++
             [.setActive M1.current false]) ++
         (.enterCall m.finalId :: .setActive m.finalId true :: trf) ++
         trg ++ tru,
       .ok ⟨⟨ru, untriggeredResult⟩, untriggeredTA, untriggeredTA⟩) := by
    rw [show fuel + 2 = (fuel + 1) + 1 from rfl, FSMRec.process_event]
    simp only [hd1, ← hM2M]
    rw [FSMRec.process_event]
    simp only [hd2]
    simp [StateEventHandlingResult.was_transition_requested,
      TAResult.was_transition_requested, untriggeredTA, untriggeredResult]
  refine ⟨?_, ?_, ?_⟩
  · rw [FSMRec.stop, if_pos hne, hadd]
    show (FSMRec.process_event (fuel + 2) M1 .exit).1.current = m.finalId
    rw [hloop]
    exact hM2cur
  · rw [FSMRec.stop, if_pos hne, hadd]
    show ((FSMRec.process_event (fuel + 2) M1
        .exit).1.stateMap m.current).transitions.find? .exit = _
    rw [hloop]
    show (M2.stateMap m.current).transitions.find? .exit = _
    rw [hM2mapc]
    show sAdd.transitions.find? .exit = _
    rw [hsAdd]
    show ((m.stateMap m.current).transitions.add_handler true .exit
      (mkSimpleTransition m.finalId)).find? .exit = _
    exact find?_add_handler_same _ _ _ _ hnoexit
  · rw [FSMRec.stop, if_pos hne, hadd]
    show ∃ r, (FSMRec.process_event (fuel + 2) M1 .exit).2.2.map
      StopResult.loop = .ok (.loop r)
    rw [hloop]
    exact ⟨⟨⟨ru, untriggeredResult⟩, untriggeredTA, untriggeredTA⟩, rfl⟩

/-- Witness for the amended C4 at the concrete machine `c4Machine`
(current id 1, final id 9): after `stop()`, current is final, the
installed transition is still registered, and the call returned
normally. -/
theorem fsm_stop_persistent_transition_reaches_final_witness :
    (FSMRec.stop 5 c4Machine).1.current = 9 ∧
    ((FSMRec.stop 5 c4Machine).1.stateMap 1).transitions.find? .exit =
      some ⟨[mkSimpleTransition 9], true, untriggeredResult⟩ ∧
    (∃ r, (FSMRec.stop 5 c4Machine).2.2 = .ok (.loop r)) :=
  fsm_stop_persistent_transition_reaches_final c4Machine 3
    (by decide) rfl (by decide) (by decide) (by decide) rfl

/-- The `HSM`: states identified by `Nat` ids; `parent` is the non-owning
parent link of `SimpleState`; `current` is the current leaf;
`state_change_activities` is the top state's "on transition completed"
list. -/
structure HSMRec where
  stateMap : Nat → StateRec
  parent : Nat → Option Nat
  current : Nat
  state_change_activities : HandlerList

/-- Replace one state's record (in-place mutation of the Python object). -/
def HSMRec.updState (m : HSMRec) (sid : Nat) (s : StateRec) : HSMRec :=
  { m with stateMap := fun x => if x = sid then s else m.stateMap x }

/-- The loop of `SimpleState.get_parent_stack` before the final
`reverse`: the state itself, then its parents leaf-to-root.  `fuel`
bounds the climb (Python assumes an acyclic chain and no bound). -/
def parentChainUp (parent : Nat → Option Nat) : Nat → Nat → List Nat
  | 0, s => [s]
  | fuel + 1, s =>
    match parent s with
    | none => [s]
    | some p => s :: parentChainUp parent fuel p

/-- `SimpleState.get_parent_stack`: the ancestor chain root-to-leaf,
inclusive. -/
def get_parent_stack (parent : Nat → Option Nat) (fuel : Nat) (s : Nat) :
    List Nat :=
  (parentChainUp parent fuel s).reverse

/-- `SimpleState.process_event`: first the local `fsm.State` dispatch; if
neither an activity fired nor a transition was requested AND the state has
a parent, delegate the same event to the parent; otherwise return the
local result. -/
def simpleProcessEvent (m : HSMRec) :
    Nat → Nat → EventType → List Entry × Except Failure TAResult
  | 0, _, _ => ([], .error .outOfFuel)
  | fuel + 1, sid, e =>
    match (m.stateMap sid).process_event e with
    | (tr, .error v) => (tr, .error v)
    | (tr, .ok r) =>
      match m.parent sid with
      | some p =>
        if !r.did_act_or_requested_transition then
          let rec' := simpleProcessEvent m fuel p e
          (tr ++ rec'.1, rec'.2)
        else (tr, .ok r)
      | none => (tr, .ok r)

/-- The exit loop of `HSM._dipatch_to_current` (the `activity` flag it
sets is never read, as in the source). -/
def runExits : HSMRec → List Nat → HSMRec × List Entry × Except Failure Unit
  | m, [] => (m, [], .ok ())
  | m, sid :: rest =>
    match (m.stateMap sid).exit sid with
    | (s', tr, .error v) => (m.updState sid s', tr, .error v)
    | (s', tr, .ok _) =>
      let r := runExits (m.updState sid s') rest
      (r.1, tr ++ r.2.1, r.2.2)

/-- The enter loop of `HSM._dipatch_to_current`. -/
def runEnters : HSMRec → List Nat → HSMRec × List Entry × Except Failure Unit
  | m, [] => (m, [], .ok ())
  | m, sid :: rest =>
    match (m.stateMap sid).enter sid with
    | (s', tr, .error v) => (m.updState sid s', tr, .error v)
    | (s', tr, .ok _) =>
      let r := runEnters (m.updState sid s') rest
      (r.1, tr ++ r.2.1, r.2.2)

/-- `HSM._dipatch_to_current`: delegate to the current leaf (bubbling);
if a transition was requested, diff the ancestor paths —
`common = source ∩ target` as sets, `exit_stack` the source path minus
common reversed (deepest first), `enter_stack` the target path minus
common (shallowest first) — exit then enter accordingly, set `current`
to `enter_stack[-1]` (an IndexError when the enter stack is empty),
notify the state-change list, call the no-op `SimpleState.start` on the
new current, and return the bubbled activity/transition results
re-bundled. -/
def HSMRec.dipatch_to_current (m : HSMRec) (fuel : Nat) (e : EventType) :
    HSMRec × List Entry × Except Failure TAResult :=
  match simpleProcessEvent m fuel m.current e with
  | (tr, .error v) => (m, tr, .error v)
  | (tr, .ok response) =>
    match response.transition.target with
    | none => (m, tr, .ok response)
    | some tgt =>
      let source_stack := get_parent_stack m.parent fuel m.current
      let target_stack := get_parent_stack m.parent fuel tgt
      let common_set := source_stack.filter (fun st => st ∈ target_stack)
      let exit_stack :=
        (source_stack.filter (fun st => st ∉ common_set)).reverse
      let enter_stack := target_stack.filter (fun st => st ∉ common_set)
      match runExits m exit_stack with
      | (m1, tr1, .error v) => (m1, tr ++ tr1, .error v)
      | (m1, tr1, .ok _) =>
        match runEnters m1 enter_stack with
        | (m2, tr2, .error v) => (m2, tr ++ tr1 ++ tr2, .error v)
        | (m2, tr2, .ok _) =>
          match enter_stack.getLast? with
          | none => (m2, tr ++ tr1 ++ tr2, .error .emptyEnterStack)
          | some newCur =>
            let m3 : HSMRec := { m2 with current := newCur }
            match m3.state_change_activities.process_event .base with
            | (tr3, .error v) => (m3, tr ++ tr1 ++ tr2 ++ tr3, .error v)
            | (tr3, .ok _) =>
              (m3, tr ++ tr1 ++ tr2 ++ tr3,
                .ok ⟨response.activity, response.transition⟩)

/-- `HSM.dispatch`: the hierarchical dispatch loop.  If the event just
dispatched was the Enter event, the next event is the synthetic Unnamed
event; otherwise the loop ends unless a transition was requested — in
which case the SAME event is dispatched again (the source has no
`send_unnamed` rearm here, unlike the flat loop).  The third component
records the sequence of events dispatched. -/
def HSMRec.dispatch :
    Nat → Nat → HSMRec → EventType →
      HSMRec × List Entry × List EventType × Except Failure TAResult
  | 0, _, m, _ => (m, [], [], .error .outOfFuel)
  | fuel + 1, pfuel, m, e =>
    match m.dipatch_to_current pfuel e with
    | (m1, tr, .error v) => (m1, tr, [e], .error v)
    | (m1, tr, .ok response) =>
      if e = .enter then
        let r := HSMRec.dispatch fuel pfuel m1 .unnamed
        (r.1, tr ++ r.2.1, e :: r.2.2.1, r.2.2.2)
      else if response.was_transition_requested then
        let r := HSMRec.dispatch fuel pfuel m1 e
        (r.1, tr ++ r.2.1, e :: r.2.2.1, r.2.2.2)
      else (m1, tr, [e], .ok response)

/-- C3: `SimpleState.process_event` first runs the local `fsm.State`
dispatch; if and only if the local dispatch neither fired an activity nor
requested a transition and the state has a parent, the SAME event is
delegated to the parent's `process_event` (whose outcome and trace are
returned unchanged, so bubbling continues transitively up the chain);
otherwise the local result is returned. -/
theorem simple_state_process_event_bubbling
    (m : HSMRec) (fuel : Nat) (sid : Nat) (e : EventType)
    (tr : List Entry) (r : TAResult)
    (hlocal : (m.stateMap sid).process_event e = (tr, .ok r)) :
    (∀ p, m.parent sid = some p →
      r.did_act_or_requested_transition = false →
      simpleProcessEvent m (fuel + 1) sid e =
        (tr ++ (simpleProcessEvent m fuel p e).1,
          (simpleProcessEvent m fuel p e).2)) ∧
    (r.did_act_or_requested_transition = true ∨ m.parent sid = none →
      simpleProcessEvent m (fuel + 1) sid e = (tr, .ok r)) := by
  constructor
  · intro p hp hdart
    rw [simpleProcessEvent]
    simp only [hlocal, hp, hdart]
    simp
  · rintro (hdart | hp)
    · rw [simpleProcessEvent]
      simp only [hlocal]
      cases hp2 : m.parent sid with
      | none => simp
      | some p => simp [hdart]
    · rw [simpleProcessEvent]
      simp only [hlocal, hp]

/-- An empty (handler-free) state record. -/
def emptyStateRec : StateRec := ⟨⟨[]⟩, ⟨[]⟩, false⟩

/-- A root state with one activity for `e1` (label 31). -/
def bubbleRoot : StateRec :=
  { activities := ⟨[(.e1, ⟨[⟨some alwaysTrueGuard, true, 31, none⟩], false,
      untriggeredResult⟩)]⟩,
    transitions := ⟨[]⟩, active := true }

/-- A two-level hierarchy: leaf 1 (no handlers) under root 0. -/
def bubbleMachine : HSMRec :=
  { stateMap := fun sid => if sid = 0 then bubbleRoot else emptyStateRec,
    parent := fun sid => if sid = 1 then some 0 else none,
    current := 1,
    state_change_activities := ⟨[], false, untriggeredResult⟩ }

/-- Witness for C3: the leaf handles nothing for `e1`, so the event
bubbles to the root, whose activity fires; the bubbled result is the
root's local result. -/
theorem simple_state_process_event_bubbling_witness :
    simpleProcessEvent bubbleMachine 3 1 .e1 =
      ([.guardCall 31, .effectCall 31],
        .ok ⟨⟨true, none⟩, ⟨false, none⟩⟩) := by
  have h := (simple_state_process_event_bubbling bubbleMachine 2 1 .e1 []
    ⟨untriggeredResult, untriggeredResult⟩ rfl).1 0 rfl rfl
  rw [h]
  rfl

/-- `true` on the `enterCall`/`exitCall` method-invocation markers. -/
def Entry.isCallMarker : Entry → Bool
  | .enterCall _ => true
  | .exitCall _ => true
  | _ => false

/-- A single handler's trace holds only guard/effect entries. -/
theorem Handler.process_entries (h : Handler) (e : EventType)
    (p : Entry → Bool) (hg : ∀ i, p (.guardCall i) = false)
    (hf : ∀ i, p (.effectCall i) = false) :
    ((h.process_event e).1).all (fun x => !p x) = true := by
  cases hgd : h.guard with
  | none => simp [Handler.process_event, hgd]
  | some g =>
    cases hge : g e with
    | nonBool => simp [Handler.process_event, hgd, hge, hg]
    | bool b =>
      cases heff : h.effectSet <;> cases b <;>
        simp [Handler.process_event, hgd, hge, heff, hg, hf]

/-- A handler-list walk's trace holds only guard/effect entries. -/
theorem processHandlers_entries (stop : Bool) (e : EventType)
    (p : Entry → Bool) (hg : ∀ i, p (.guardCall i) = false)
    (hf : ∀ i, p (.effectCall i) = false) :
    ∀ (hs : List Handler) (last : HandlerResult),
      ((processHandlers stop e hs last).1).all (fun x => !p x) = true := by
  intro hs
  induction hs with
  | nil => intro last; simp [processHandlers]
  | cons h t ih =>
    intro last
    have hh := Handler.process_entries h e p hg hf
    rcases hp : h.process_event e with ⟨tr, res⟩
    rw [hp] at hh
    cases res with
    | error v => simp [processHandlers, hp, hh]
    | ok r =>
      by_cases hr : r.handler_triggered = true
      · cases stop with
        | true => simp [processHandlers, hp, hr, hh]
        | false => simp [processHandlers, hp, hr, hh, ih]
      · simp at hr
        simp [processHandlers, hp, hr, hh, ih]

/-- An event-dict dispatch's trace holds only guard/effect entries. -/
theorem EventDict.process_event_entries (d : EventDict) (e : EventType)
    (p : Entry → Bool) (hg : ∀ i, p (.guardCall i) = false)
    (hf : ∀ i, p (.effectCall i) = false) :
    ((d.process_event e).1).all (fun x => !p x) = true := by
  rw [EventDict.process_event]
  cases d.find? e with
  | none => simp
  | some l => exact processHandlers_entries _ e p hg hf l.handlers _

/-- A `State.process_event` dispatch's trace holds only guard/effect
entries. -/
theorem StateRec.state_dispatch_entries (s : StateRec) (e : EventType)
    (p : Entry → Bool) (hg : ∀ i, p (.guardCall i) = false)
    (hf : ∀ i, p (.effectCall i) = false) :
    ((s.process_event e).1).all (fun x => !p x) = true := by
  rw [StateRec.process_event]
  have ha := EventDict.process_event_entries s.activities e p hg hf
  have ht := EventDict.process_event_entries s.transitions e p hg hf
  rcases hpa : s.activities.process_event e with ⟨tr, res⟩
  rw [hpa] at ha
  cases res with
  | error v => simpa using ha
  | ok a =>
    rcases hpt : s.transitions.process_event e with ⟨tr2, res2⟩
    rw [hpt] at ht
    cases res2 with
    | error v => simp only []; rw [List.all_append]; simp [ha, ht]
    | ok t => simp only []; rw [List.all_append]; simp [ha, ht]

/-- A bubbled `SimpleState.process_event` never invokes `enter`/`exit`:
its trace holds no call markers. -/
theorem simpleProcessEvent_no_marker (m : HSMRec) :
    ∀ (fuel : Nat) (sid : Nat) (e : EventType),
      ((simpleProcessEvent m fuel sid e).1).all
        (fun x => !x.isCallMarker) = true := by
  intro fuel
  induction fuel with
  | zero => intro sid e; simp [simpleProcessEvent]
  | succ f ih =>
    intro sid e
    have hs := StateRec.state_dispatch_entries (m.stateMap sid) e Entry.isCallMarker
      (fun _ => rfl) (fun _ => rfl)
    rcases hp : (m.stateMap sid).process_event e with ⟨tr, res⟩
    rw [hp] at hs
    cases res with
    | error v => simp [simpleProcessEvent, hp, hs]
    | ok r =>
      cases hpar : m.parent sid with
      | none => simp [simpleProcessEvent, hp, hpar, hs]
      | some p =>
        by_cases hd : r.did_act_or_requested_transition = true
        · simp [simpleProcessEvent, hp, hpar, hd, hs]
        · simp only [Bool.not_eq_true] at hd
          simp [simpleProcessEvent, hp, hpar, hd, hs, ih p e]

/-- `HSM._dipatch_to_current` on a requested transition, phrased through
equations for the computed exit/enter stacks and for the two run loops:
exits run first, then enters, `current` moves to `enter_stack[-1]`, and
the bubbled result is re-bundled. -/
theorem hsm_dipatch_transition_eq (m : HSMRec) (fuel : Nat) (e : EventType)
    (tr0 tr1 tr2 trg : List Entry) (r : TAResult) (tgt newCur : Nat)
    (xs es : List Nat) (m1 m2 : HSMRec) (rg : HandlerResult)
    (hbubble : simpleProcessEvent m fuel m.current e = (tr0, .ok r))
    (htgt : r.transition.target = some tgt)
    (hxs : ((get_parent_stack m.parent fuel m.current).filter
        (fun st => st ∉ (get_parent_stack m.parent fuel m.current).filter
          (fun st => st ∈ get_parent_stack m.parent fuel tgt))).reverse =
      xs)
    (hes : (get_parent_stack m.parent fuel tgt).filter
        (fun st => st ∉ (get_parent_stack m.parent fuel m.current).filter
          (fun st => st ∈ get_parent_stack m.parent fuel tgt)) = es)
    (hex : runExits m xs = (m1, tr1, .ok ()))
    (hen : runEnters m1 es = (m2, tr2, .ok ()))
    (hlast : es.getLast? = some newCur)
    (hg : m2.state_change_activities.process_event .base = (trg, .ok rg)) :
    m.dipatch_to_current fuel e =
      ({ m2 with current := newCur }, tr0 ++ tr1 ++ tr2 ++ trg,
        .ok ⟨r.activity, r.transition⟩) := by
  rw [HSMRec.dipatch_to_current]
  simp only [hbubble, htgt, hxs, hes, hex, hen, hlast, hg]

/-- `HSM._dipatch_to_current` on a requested transition whose computed
enter stack is empty: the exits (and the vacuous enters) still run, and
then `enter_stack[-1]` raises — the dispatch fails with no result. -/
theorem hsm_dipatch_transition_empty_enter (m : HSMRec) (fuel : Nat)
    (e : EventType) (tr0 tr1 : List Entry) (r : TAResult) (tgt : Nat)
    (xs : List Nat) (m1 : HSMRec)
    (hbubble : simpleProcessEvent m fuel m.current e = (tr0, .ok r))
    (htgt : r.transition.target = some tgt)
    (hxs : ((get_parent_stack m.parent fuel m.current).filter
        (fun st => st ∉ (get_parent_stack m.parent fuel m.current).filter
          (fun st => st ∈ get_parent_stack m.parent fuel tgt))).reverse =
      xs)
    (hes : (get_parent_stack m.parent fuel tgt).filter
        (fun st => st ∉ (get_parent_stack m.parent fuel m.current).filter
          (fun st => st ∈ get_parent_stack m.parent fuel tgt)) = [])
    (hex : runExits m xs = (m1, tr1, .ok ())) :
    m.dipatch_to_current fuel e =
      (m1, tr0 ++ tr1 ++ [], .error .emptyEnterStack) := by
  rw [HSMRec.dipatch_to_current]
  simp only [hbubble, htgt, hxs, hes, hex]
  rfl

/-- One step of the exit loop, given the state's Exit dispatch outcome. -/
theorem runExits_cons (m : HSMRec) (sid : Nat) (rest : List Nat)
    (tr : List Entry) (rx : TAResult) (m' : HSMRec) (tr' : List Entry)
    (res : Except Failure Unit)
    (hx : (m.stateMap sid).process_event .exit = (tr, .ok rx))
    (hrest : runExits
      (m.updState sid { m.stateMap sid with active := false }) rest =
      (m', tr', res)) :
    runExits m (sid :: rest) =
      (m', (.exitCall sid :: tr ++ [.setActive sid false]) ++ tr', res) := by
  rw [runExits, StateRec.exit_of_process _ _ _ _ hx]
  simp only [hrest]

/-- One step of the enter loop, given the flipped state's Enter dispatch
outcome. -/
theorem runEnters_cons (m : HSMRec) (sid : Nat) (rest : List Nat)
    (tr : List Entry) (rn : TAResult) (m' : HSMRec) (tr' : List Entry)
    (res : Except Failure Unit)
    (hn : ({ m.stateMap sid with active := true } : StateRec).process_event
      .enter = (tr, .ok rn))
    (hrest : runEnters
      (m.updState sid { m.stateMap sid with active := true }) rest =
      (m', tr', res)) :
    runEnters m (sid :: rest) =
      (m', (.enterCall sid :: .setActive sid true :: tr) ++ tr', res) := by
  rw [runEnters, StateRec.enter_of_process _ _ _ _ hn]
  simp only [hrest]

/-- A trace none of whose entries satisfies `p` filters to `[]`. -/
theorem filter_none_of_all {tr : List Entry} {p : Entry → Bool}
    (h : tr.all (fun x => !p x) = true) : tr.filter p = [] := by
  induction tr with
  | nil => rfl
  | cons x rest ih =>
    simp only [List.all_cons, Bool.and_eq_true, Bool.not_eq_true'] at h
    rw [List.filter_cons, h.1]
    exact ih h.2

/-- C1: for a hierarchical transition dispatched from current leaf `a`
(ancestor path `[root, p1, a]`) to target `c` (ancestor path
`[root, p2, c]`), with all five states distinct and well formed, the
exit/enter sequence is exactly `exit(a), exit(p1), enter(p2), enter(c)`:
states on the source path off the target path are exited deepest-first,
states on the target path off the source path are entered
shallowest-first, the common ancestor `root` is neither exited nor
re-entered, and `current` is set to the deepest entered state `c`. -/
theorem hsm_cross_level_transition_exit_enter_order
    (m : HSMRec) (root p1 a p2 c : Nat) (e : EventType)
    (tr0 : List Entry) (r : TAResult)
    (h1 : p1 ≠ root) (h2 : a ≠ root) (h3 : p2 ≠ root) (h4 : c ≠ root)
    (h5 : a ≠ p1) (h6 : p1 ≠ p2) (h7 : p1 ≠ c) (h8 : a ≠ p2)
    (h9 : a ≠ c) (h10 : p2 ≠ c)
    (hcur : m.current = a)
    (hpr : m.parent root = none) (hpp1 : m.parent p1 = some root)
    (hpa : m.parent a = some p1) (hpp2 : m.parent p2 = some root)
    (hpc : m.parent c = some p2)
    (hbubble : simpleProcessEvent m 3 m.current e = (tr0, .ok r))
    (htgt : r.transition.target = some c)
    (hwa : (m.stateMap a).wf = true) (hwp1 : (m.stateMap p1).wf = true)
    (hwp2 : (m.stateMap p2).wf = true) (hwc : (m.stateMap c).wf = true)
    (hwg : m.state_change_activities.wf = true) :
    ((m.dipatch_to_current 3 e).2.1).filter Entry.isCallMarker =
      [.exitCall a, .exitCall p1, .enterCall p2, .enterCall c] ∧
    (m.dipatch_to_current 3 e).1.current = c ∧
    (∃ res, (m.dipatch_to_current 3 e).2.2 = .ok res ∧
      res.transition.target = some c) := by
  -- ancestor paths
  have hss : get_parent_stack m.parent 3 m.current = [root, p1, a] := by
    rw [hcur]
    simp [get_parent_stack, parentChainUp, hpa, hpp1, hpr]
  have hts : get_parent_stack m.parent 3 c = [root, p2, c] := by
    simp [get_parent_stack, parentChainUp, hpc, hpp2, hpr]
  have hcm : (get_parent_stack m.parent 3 m.current).filter
      (fun st => st ∈ get_parent_stack m.parent 3 c) = [root] := by
    rw [hss, hts]
    simp [List.mem_cons, h1, h6, h7, h2, h8, h9]
  have hxs : ((get_parent_stack m.parent 3 m.current).filter
      (fun st => st ∉ (get_parent_stack m.parent 3 m.current).filter
        (fun st => st ∈ get_parent_stack m.parent 3 c))).reverse =
      [a, p1] := by
    rw [hcm, hss]
    simp [List.mem_singleton, h1, h2]
  have hes : (get_parent_stack m.parent 3 c).filter
      (fun st => st ∉ (get_parent_stack m.parent 3 m.current).filter
        (fun st => st ∈ get_parent_stack m.parent 3 c)) = [p2, c] := by
    rw [hcm, hts]
    simp [List.mem_singleton, h3, h4]
  -- the exit run
  obtain ⟨tra, rxa, hxa⟩ := StateRec.wf_state_process_ok (m.stateMap a) .exit hwa
  obtain ⟨trp1, rxp1, hxp1⟩ :=
    StateRec.wf_state_process_ok (m.stateMap p1) .exit hwp1
  have hlkp1 : ((m.updState a { m.stateMap a with active := false }
      ).stateMap p1) = m.stateMap p1 := by
    simp [HSMRec.updState, Ne.symm h5]
  have hex2 : runExits
      (m.updState a { m.stateMap a with active := false }) [p1] =
      (((m.updState a { m.stateMap a with active := false }).updState p1
          { m.stateMap p1 with active := false }),
        (.exitCall p1 :: trp1 ++ [.setActive p1 false]) ++ [], .ok ()) := by
    refine runExits_cons _ p1 [] trp1 rxp1 _ [] (.ok ()) ?_ ?_
    · rw [hlkp1]
      exact hxp1
    · rw [hlkp1]
      rfl
  have hex : runExits m [a, p1] =
      (((m.updState a { m.stateMap a with active := false }).updState p1
          { m.stateMap p1 with active := false }),
        (.exitCall a :: tra ++ [.setActive a false]) ++
          ((.exitCall p1 :: trp1 ++ [.setActive p1 false]) ++ []),
        .ok ()) :=
    runExits_cons m a [p1] tra rxa _ _ _ hxa hex2
  -- the enter run
  obtain ⟨trp2, rn2, hnp2⟩ := StateRec.wf_state_process_ok
    { m.stateMap p2 with active := true } .enter hwp2
  obtain ⟨trc, rnc, hnc⟩ := StateRec.wf_state_process_ok
    { m.stateMap c with active := true } .enter hwc
  have hlkp2 : (((m.updState a { m.stateMap a with active := false }
      ).updState p1 { m.stateMap p1 with active := false }).stateMap p2) =
      m.stateMap p2 := by
    simp [HSMRec.updState, Ne.symm h6, Ne.symm h8]
  have hlkc : ∀ s2 s1 s0 : StateRec,
      ((((m.updState a s0).updState p1 s1).updState p2 s2).stateMap c) =
      m.stateMap c := by
    intro s2 s1 s0
    simp [HSMRec.updState, Ne.symm h7, Ne.symm h9, Ne.symm h10]
  have hen2 : runEnters
      ((((m.updState a { m.stateMap a with active := false }).updState p1
        { m.stateMap p1 with active := false }).updState p2
        { m.stateMap p2 with active := true })) [c] =
      (((((m.updState a { m.stateMap a with active := false }).updState p1
        { m.stateMap p1 with active := false }).updState p2
        { m.stateMap p2 with active := true }).updState c
        { m.stateMap c with active := true }),
        (.enterCall c :: .setActive c true :: trc) ++ [], .ok ()) := by
    refine runEnters_cons _ c [] trc rnc _ [] (.ok ()) ?_ ?_
    · rw [hlkc]
      exact hnc
    · rw [hlkc]
      rfl
  have hen : runEnters
      (((m.updState a { m.stateMap a with active := false }).updState p1
        { m.stateMap p1 with active := false })) [p2, c] =
      (((((m.updState a { m.stateMap a with active := false }).updState p1
        { m.stateMap p1 with active := false }).updState p2
        { m.stateMap p2 with active := true }).updState c
        { m.stateMap c with active := true }),
        (.enterCall p2 :: .setActive p2 true :: trp2) ++
          ((.enterCall c :: .setActive c true :: trc) ++ []),
        .ok ()) := by
    refine runEnters_cons _ p2 [c] trp2 rn2 _ _ (.ok ()) ?_ ?_
    · rw [hlkp2]
      exact hnp2
    · rw [hlkp2]
      exact hen2
  -- the state-change notification
  obtain ⟨trg, rg, hgd⟩ := HandlerList.wf_list_process_ok
    m.state_change_activities .base hwg
  have heq := hsm_dipatch_transition_eq m 3 e tr0 _ _ trg r c c [a, p1]
    [p2, c] _ _ rg hbubble htgt hxs hes hex hen rfl hgd
  -- trace contents of the auxiliary dispatches
  have htr0 : tr0.filter Entry.isCallMarker = [] := by
    apply filter_none_of_all
    have hm := simpleProcessEvent_no_marker m 3 m.current e
    rw [hbubble] at hm
    exact hm
  have htra : tra.filter Entry.isCallMarker = [] := by
    apply filter_none_of_all
    have hm := StateRec.state_dispatch_entries (m.stateMap a) .exit
      Entry.isCallMarker (fun _ => rfl) (fun _ => rfl)
    rw [hxa] at hm
    exact hm
  have htrp1 : trp1.filter Entry.isCallMarker = [] := by
    apply filter_none_of_all
    have hm := StateRec.state_dispatch_entries (m.stateMap p1) .exit
      Entry.isCallMarker (fun _ => rfl) (fun _ => rfl)
    rw [hxp1] at hm
    exact hm
  have htrp2 : trp2.filter Entry.isCallMarker = [] := by
    apply filter_none_of_all
    have hm := StateRec.state_dispatch_entries
      { m.stateMap p2 with active := true } .enter
      Entry.isCallMarker (fun _ => rfl) (fun _ => rfl)
    rw [hnp2] at hm
    exact hm
  have htrc : trc.filter Entry.isCallMarker = [] := by
    apply filter_none_of_all
    have hm := StateRec.state_dispatch_entries
      { m.stateMap c with active := true } .enter
      Entry.isCallMarker (fun _ => rfl) (fun _ => rfl)
    rw [hnc] at hm
    exact hm
  have htrg : trg.filter Entry.isCallMarker = [] := by
    apply filter_none_of_all
    have hm := processHandlers_entries
      m.state_change_activities.stop_at_first_trigger .base
      Entry.isCallMarker (fun _ => rfl) (fun _ => rfl)
      m.state_change_activities.handlers
      m.state_change_activities.untriggered_response
    rw [show processHandlers m.state_change_activities.stop_at_first_trigger
      .base m.state_change_activities.handlers
      m.state_change_activities.untriggered_response =
      m.state_change_activities.process_event .base from rfl, hgd] at hm
    exact hm
  refine ⟨?_, ?_, ?_⟩
  · rw [heq]
    simp [List.filter_append, List.filter_cons, htr0, htra, htrp1, htrp2,
      htrc, htrg, Entry.isCallMarker]
  · rw [heq]
  · rw [heq]
    exact ⟨⟨r.activity, r.transition⟩, rfl, htgt⟩

/-- The leaf `a` (id 2) of the five-state hierarchy: one transition for
`e1` (label 41) targeting `c` (id 4). -/
def c1Leaf : StateRec :=
  { activities := ⟨[]⟩,
    transitions := ⟨[(.e1, ⟨[⟨some alwaysTrueGuard, true, 41, some 4⟩],
      true, untriggeredResult⟩)]⟩,
    active := true }

/-- The five-state hierarchy root 0 ← {p1 1, p2 3}; p1 ← a 2 (current),
p2 ← c 4. -/
def hsm1 : HSMRec :=
  { stateMap := fun sid => if sid = 2 then c1Leaf else emptyStateRec,
    parent := fun sid =>
      if sid = 0 then none
      else if sid = 1 then some 0
      else if sid = 2 then some 1
      else if sid = 3 then some 0
      else if sid = 4 then some 3
      else none,
    current := 2,
    state_change_activities := ⟨[], false, untriggeredResult⟩ }

/-- Witness for C1 at the concrete five-state hierarchy: the dispatch of
`e1` produces exactly `exit(2), exit(1), enter(3), enter(4)` and leaves
`current = 4`. -/
theorem hsm_cross_level_transition_exit_enter_order_witness :
    ((hsm1.dipatch_to_current 3 .e1).2.1).filter Entry.isCallMarker =
      [.exitCall 2, .exitCall 1, .enterCall 3, .enterCall 4] ∧
    (hsm1.dipatch_to_current 3 .e1).1.current = 4 := by
  have h := hsm_cross_level_transition_exit_enter_order hsm1 0 1 2 3 4 .e1
    [.guardCall 41, .effectCall 41] ⟨⟨false, none⟩, ⟨true, some 4⟩⟩
    (by decide) (by decide) (by decide) (by decide) (by decide)
    (by decide) (by decide) (by decide) (by decide) (by decide)
    rfl rfl rfl rfl rfl rfl rfl rfl
    (by decide) (by decide) (by decide) (by decide) (by decide)
  exact ⟨h.1, h.2.1⟩

/-- C9: in `HSM._dipatch_to_current` on the five-state hierarchy, whenever
the triggered transition's target is the current leaf `a` itself or one of
its ancestors (`p1` or `root`), the computed enter stack is empty and
`self.current = enter_stack[-1]` indexes an empty sequence, so the
dispatch fails (IndexError) with no defined result; the indexing is in
bounds when the target (`c`) lies off the current leaf's ancestor path. -/
theorem hsm_target_on_own_path_empty_enter_fails
    (m : HSMRec) (root p1 a p2 c : Nat) (e : EventType)
    (tr0 : List Entry) (r : TAResult)
    (h1 : p1 ≠ root) (h2 : a ≠ root) (h3 : p2 ≠ root) (h4 : c ≠ root)
    (h5 : a ≠ p1) (h6 : p1 ≠ p2) (h7 : p1 ≠ c) (h8 : a ≠ p2)
    (h9 : a ≠ c) (h10 : p2 ≠ c)
    (hcur : m.current = a)
    (hpr : m.parent root = none) (hpp1 : m.parent p1 = some root)
    (hpa : m.parent a = some p1) (hpp2 : m.parent p2 = some root)
    (hpc : m.parent c = some p2)
    (hbubble : simpleProcessEvent m 3 m.current e = (tr0, .ok r))
    (hwa : (m.stateMap a).wf = true) (hwp1 : (m.stateMap p1).wf = true)
    (hwp2 : (m.stateMap p2).wf = true) (hwc : (m.stateMap c).wf = true)
    (hwg : m.state_change_activities.wf = true) :
    ((r.transition.target = some a ∨ r.transition.target = some p1 ∨
        r.transition.target = some root) →
      ∃ m' tr', m.dipatch_to_current 3 e =
        (m', tr', .error .emptyEnterStack)) ∧
    (r.transition.target = some c →
      ∃ m' tr' res, m.dipatch_to_current 3 e = (m', tr', .ok res)) := by
  have hss : get_parent_stack m.parent 3 m.current = [root, p1, a] := by
    rw [hcur]
    simp [get_parent_stack, parentChainUp, hpa, hpp1, hpr]
  obtain ⟨tra, rxa, hxa⟩ := StateRec.wf_state_process_ok (m.stateMap a) .exit hwa
  obtain ⟨trp1, rxp1, hxp1⟩ :=
    StateRec.wf_state_process_ok (m.stateMap p1) .exit hwp1
  have hlkp1 : ((m.updState a { m.stateMap a with active := false }
      ).stateMap p1) = m.stateMap p1 := by
    simp [HSMRec.updState, Ne.symm h5]
  constructor
  · rintro (htgt | htgt | htgt)
    · -- target = a: both diffs are empty; nothing is exited, then index
      have hta : get_parent_stack m.parent 3 a = [root, p1, a] := by
        simp [get_parent_stack, parentChainUp, hpa, hpp1, hpr]
      refine ⟨m, tr0 ++ [] ++ [], ?_⟩
      refine hsm_dipatch_transition_empty_enter m 3 e tr0 [] r a []
        m hbubble htgt ?_ ?_ rfl
      · rw [hss, hta]
        simp
      · rw [hta, hss]
        simp
    · -- target = p1: `a` is exited, then the empty index
      have hts : get_parent_stack m.parent 3 p1 = [root, p1] := by
        simp [get_parent_stack, parentChainUp, hpp1, hpr]
      have hcm : (get_parent_stack m.parent 3 m.current).filter
          (fun st => st ∈ get_parent_stack m.parent 3 p1) = [root, p1] := by
        rw [hss, hts]
        simp [List.mem_cons, h2, h5]
      have hf1 : ((get_parent_stack m.parent 3 m.current).filter
          (fun st => st ∉ (get_parent_stack m.parent 3 m.current).filter
            (fun st => st ∈ get_parent_stack m.parent 3 p1))).reverse =
          [a] := by
        rw [hcm, hss]
        simp [List.mem_cons, h2, h5]
      have hf2 : (get_parent_stack m.parent 3 p1).filter
          (fun st => st ∉ (get_parent_stack m.parent 3 m.current).filter
            (fun st => st ∈ get_parent_stack m.parent 3 p1)) = [] := by
        rw [hcm, hts]
        simp
      have hrx : runExits m [a] =
          (m.updState a { m.stateMap a with active := false },
            (.exitCall a :: tra ++ [.setActive a false]) ++ [], .ok ()) :=
        runExits_cons m a [] tra rxa _ [] (.ok ()) hxa rfl
      exact ⟨_, _, hsm_dipatch_transition_empty_enter m 3 e tr0 _ r p1 [a]
        _ hbubble htgt hf1 hf2 hrx⟩
    · -- target = root: `a` and `p1` are exited, then the empty index
      have hts : get_parent_stack m.parent 3 root = [root] := by
        simp [get_parent_stack, parentChainUp, hpr]
      have hcm : (get_parent_stack m.parent 3 m.current).filter
          (fun st => st ∈ get_parent_stack m.parent 3 root) = [root] := by
        rw [hss, hts]
        simp [List.mem_singleton, h1, h2]
      have hf1 : ((get_parent_stack m.parent 3 m.current).filter
          (fun st => st ∉ (get_parent_stack m.parent 3 m.current).filter
            (fun st => st ∈ get_parent_stack m.parent 3 root))).reverse =
          [a, p1] := by
        rw [hcm, hss]
        simp [List.mem_singleton, h1, h2]
      have hf2 : (get_parent_stack m.parent 3 root).filter
          (fun st => st ∉ (get_parent_stack m.parent 3 m.current).filter
            (fun st => st ∈ get_parent_stack m.parent 3 root)) = [] := by
        rw [hcm, hts]
        simp
      have hrx : runExits m [a, p1] =
          ((m.updState a { m.stateMap a with active := false }).updState p1
            { m.stateMap p1 with active := false },
            (.exitCall a :: tra ++ [.setActive a false]) ++
              ((.exitCall p1 :: trp1 ++ [.setActive p1 false]) ++ []),
            .ok ()) := by
        refine runExits_cons m a [p1] tra rxa _ _ (.ok ()) hxa ?_
        refine runExits_cons _ p1 [] trp1 rxp1 _ [] (.ok ()) ?_ ?_
        · rw [hlkp1]
          exact hxp1
        · rw [hlkp1]
          rfl
      exact ⟨_, _, hsm_dipatch_transition_empty_enter m 3 e tr0 _ r root
        [a, p1] _ hbubble htgt hf1 hf2 hrx⟩
  · -- target = c: off the current path, the indexing is in bounds
    intro htgt
    have hts : get_parent_stack m.parent 3 c = [root, p2, c] := by
      simp [get_parent_stack, parentChainUp, hpc, hpp2, hpr]
    have hcm : (get_parent_stack m.parent 3 m.current).filter
        (fun st => st ∈ get_parent_stack m.parent 3 c) = [root] := by
      rw [hss, hts]
      simp [List.mem_cons, h1, h6, h7, h2, h8, h9]
    obtain ⟨trp2, rn2, hnp2⟩ := StateRec.wf_state_process_ok
      { m.stateMap p2 with active := true } .enter hwp2
    obtain ⟨trc, rnc, hnc⟩ := StateRec.wf_state_process_ok
      { m.stateMap c with active := true } .enter hwc
    have hlkp2 : (((m.updState a { m.stateMap a with active := false }
        ).updState p1 { m.stateMap p1 with active := false }).stateMap p2) =
        m.stateMap p2 := by
      simp [HSMRec.updState, Ne.symm h6, Ne.symm h8]
    have hlkc : ∀ s2 s1 s0 : StateRec,
        ((((m.updState a s0).updState p1 s1).updState p2 s2).stateMap c) =
        m.stateMap c := by
      intro s2 s1 s0
      simp [HSMRec.updState, Ne.symm h7, Ne.symm h9, Ne.symm h10]
    obtain ⟨trg, rg, hgd⟩ := HandlerList.wf_list_process_ok
      m.state_change_activities .base hwg
    have hf1 : ((get_parent_stack m.parent 3 m.current).filter
        (fun st => st ∉ (get_parent_stack m.parent 3 m.current).filter
          (fun st => st ∈ get_parent_stack m.parent 3 c))).reverse =
        [a, p1] := by
      rw [hcm, hss]
      simp [List.mem_singleton, h1, h2]
    have hf2 : (get_parent_stack m.parent 3 c).filter
        (fun st => st ∉ (get_parent_stack m.parent 3 m.current).filter
          (fun st => st ∈ get_parent_stack m.parent 3 c)) = [p2, c] := by
      rw [hcm, hts]
      simp [List.mem_singleton, h3, h4]
    have hrx : runExits m [a, p1] =
        ((m.updState a { m.stateMap a with active := false }).updState p1
          { m.stateMap p1 with active := false },
          (.exitCall a :: tra ++ [.setActive a false]) ++
            ((.exitCall p1 :: trp1 ++ [.setActive p1 false]) ++ []),
          .ok ()) := by
      refine runExits_cons m a [p1] tra rxa _ _ (.ok ()) hxa ?_
      refine runExits_cons _ p1 [] trp1 rxp1 _ [] (.ok ()) ?_ ?_
      · rw [hlkp1]
        exact hxp1
      · rw [hlkp1]
        rfl
    have hrn : runEnters
        ((m.updState a { m.stateMap a with active := false }).updState p1
          { m.stateMap p1 with active := false }) [p2, c] =
        (((((m.updState a { m.stateMap a with active := false }).updState
          p1 { m.stateMap p1 with active := false }).updState p2
          { m.stateMap p2 with active := true }).updState c
          { m.stateMap c with active := true }),
          (.enterCall p2 :: .setActive p2 true :: trp2) ++
            ((.enterCall c :: .setActive c true :: trc) ++ []),
          .ok ()) := by
      refine runEnters_cons _ p2 [c] trp2 rn2 _ _ (.ok ()) ?_ ?_
      · rw [hlkp2]
        exact hnp2
      · rw [hlkp2]
        refine runEnters_cons _ c [] trc rnc _ [] (.ok ()) ?_ ?_
        · rw [hlkc]
          exact hnc
        · rw [hlkc]
          rfl
    exact ⟨_, _, ⟨r.activity, r.transition⟩,
      hsm_dipatch_transition_eq m 3 e tr0 _ _ trg r c c [a, p1] [p2, c]
        _ _ rg hbubble htgt hf1 hf2 hrx hrn rfl hgd⟩

/-- A leaf whose `e1` transition (label 42) targets its own parent `p1`
(id 1). -/
def c9Leaf : StateRec :=
  { activities := ⟨[]⟩,
    transitions := ⟨[(.e1, ⟨[⟨some alwaysTrueGuard, true, 42, some 1⟩],
      true, untriggeredResult⟩)]⟩,
    active := true }

/-- The five-state hierarchy with the to-parent transition on the leaf. -/
def hsm9 : HSMRec :=
  { stateMap := fun sid => if sid = 2 then c9Leaf else emptyStateRec,
    parent := fun sid =>
      if sid = 0 then none
      else if sid = 1 then some 0
      else if sid = 2 then some 1
      else if sid = 3 then some 0
      else if sid = 4 then some 3
      else none,
    current := 2,
    state_change_activities := ⟨[], false, untriggeredResult⟩ }

/-- Witness for C9 at the concrete hierarchy: the transition targeting the
leaf's own parent leaves the enter stack empty, and the dispatch fails
with the empty-index error. -/
theorem hsm_target_on_own_path_empty_enter_fails_witness :
    ∃ m' tr', hsm9.dipatch_to_current 3 .e1 =
      (m', tr', .error .emptyEnterStack) :=
  (hsm_target_on_own_path_empty_enter_fails hsm9 0 1 2 3 4 .e1
    [.guardCall 42, .effectCall 42] ⟨⟨false, none⟩, ⟨true, some 1⟩⟩
    (by decide) (by decide) (by decide) (by decide) (by decide)
    (by decide) (by decide) (by decide) (by decide) (by decide)
    rfl rfl rfl rfl rfl rfl rfl
    (by decide) (by decide) (by decide) (by decide) (by decide)).1
    (Or.inr (Or.inl rfl))

/-- C2 (amended): in `HSM.dispatch`, the first event dispatched is the
argument event; after each iteration the next event dispatched is the
synthetic Unnamed event if the event just dispatched was the Enter event,
and otherwise (unlike the flat loop, which rearms with Unnamed after every
transition) the SAME event again; and when the loop returns normally, the
last dispatch was of a non-Enter event and its result requested no
transition. -/
theorem hsm_dispatch_loop_events (lf : Nat) :
    ∀ (pfuel : Nat) (m : HSMRec) (e : EventType),
      ((HSMRec.dispatch (lf + 1) pfuel m e).2.2.1)[0]? = some e ∧
      (∀ i x y,
        ((HSMRec.dispatch (lf + 1) pfuel m e).2.2.1)[i]? = some x →
        ((HSMRec.dispatch (lf + 1) pfuel m e).2.2.1)[i + 1]? = some y →
        y = if x = .enter then .unnamed else x) ∧
      (∀ r x, (HSMRec.dispatch (lf + 1) pfuel m e).2.2.2 = .ok r →
        ((HSMRec.dispatch (lf + 1) pfuel m e).2.2.1).getLast? = some x →
        x ≠ .enter ∧ r.was_transition_requested = false) := by
  induction lf with
  | zero =>
    intro pfuel m e
    rcases hd : m.dipatch_to_current pfuel e with ⟨m1, tr, res⟩
    cases res with
    | error v =>
      rw [HSMRec.dispatch]
      simp only [hd]
      refine ⟨rfl, ?_, ?_⟩
      · intro i x y hx hy
        match i, hy with
        | 0, hy => simp at hy
        | j + 1, hy => simp at hy
      · intro r x hr
        cases hr
    | ok response =>
      rw [HSMRec.dispatch]
      simp only [hd]
      by_cases he : e = .enter
      · simp only [he, eq_self_iff_true, if_true]
        rw [HSMRec.dispatch]
        refine ⟨rfl, ?_, ?_⟩
        · intro i x y hx hy
          match i, hy with
          | 0, hy => simp at hy
          | j + 1, hy => simp at hy
        · intro r x hr
          cases hr
      · simp only [if_neg he]
        by_cases hreq : response.was_transition_requested = true
        · simp only [hreq, eq_self_iff_true, if_true]
          rw [HSMRec.dispatch]
          refine ⟨rfl, ?_, ?_⟩
          · intro i x y hx hy
            match i, hy with
            | 0, hy => simp at hy
            | j + 1, hy => simp at hy
          · intro r x hr
            cases hr
        · simp only [Bool.not_eq_true] at hreq
          simp only [hreq, Bool.false_eq_true, if_false]
          refine ⟨rfl, ?_, ?_⟩
          · intro i x y hx hy
            match i, hy with
            | 0, hy => simp at hy
            | j + 1, hy => simp at hy
          · intro r x hr hx
            cases hr
            simp only [List.getLast?_singleton, Option.some.injEq] at hx
            exact ⟨hx ▸ he, hreq⟩
  | succ lf ih =>
    intro pfuel m e
    rcases hd : m.dipatch_to_current pfuel e with ⟨m1, tr, res⟩
    cases res with
    | error v =>
      rw [HSMRec.dispatch]
      simp only [hd]
      refine ⟨rfl, ?_, ?_⟩
      · intro i x y hx hy
        match i, hy with
        | 0, hy => simp at hy
        | j + 1, hy => simp at hy
      · intro r x hr
        cases hr
    | ok response =>
      rw [HSMRec.dispatch]
      simp only [hd]
      by_cases he : e = .enter
      · simp only [he, eq_self_iff_true, if_true]
        obtain ⟨ih1, ih2, ih3⟩ := ih pfuel m1 .unnamed
        rcases hvs : (HSMRec.dispatch (lf + 1) pfuel m1 .unnamed).2.2.1
          with _ | ⟨y0, evs'⟩
        · rw [hvs] at ih1
          simp at ih1
        · rw [hvs] at ih1 ih2
          have hy0 : y0 = .unnamed := by
            simp only [List.getElem?_cons_zero, Option.some.injEq] at ih1
            exact ih1
          refine ⟨rfl, ?_, ?_⟩
          · intro i x y hx hy
            match i, hx, hy with
            | 0, hx, hy =>
              simp only [List.getElem?_cons_zero, List.getElem?_cons_succ,
                Option.some.injEq] at hx hy
              rw [← hx, ← hy, hy0]
              simp
            | j + 1, hx, hy =>
              rw [List.getElem?_cons_succ] at hx hy
              exact ih2 j x y hx hy
          · intro r x hr hx
            refine ih3 r x hr ?_
            rw [hvs]
            rw [List.getLast?_cons_cons] at hx
            exact hx
      · simp only [if_neg he]
        by_cases hreq : response.was_transition_requested = true
        · simp only [hreq, eq_self_iff_true, if_true]
          obtain ⟨ih1, ih2, ih3⟩ := ih pfuel m1 e
          rcases hvs : (HSMRec.dispatch (lf + 1) pfuel m1 e).2.2.1
            with _ | ⟨y0, evs'⟩
          · rw [hvs] at ih1
            simp at ih1
          · rw [hvs] at ih1 ih2
            have hy0 : y0 = e := by
              simp only [List.getElem?_cons_zero, Option.some.injEq] at ih1
              exact ih1
            refine ⟨rfl, ?_, ?_⟩
            · intro i x y hx hy
              match i, hx, hy with
              | 0, hx, hy =>
                simp only [List.getElem?_cons_zero,
                  List.getElem?_cons_succ, Option.some.injEq] at hx hy
                rw [← hx, ← hy, hy0, if_neg he]
              | j + 1, hx, hy =>
                rw [List.getElem?_cons_succ] at hx hy
                exact ih2 j x y hx hy
            · intro r x hr hx
              refine ih3 r x hr ?_
              rw [hvs]
              rw [List.getLast?_cons_cons] at hx
              exact hx
        · simp only [Bool.not_eq_true] at hreq
          simp only [hreq, Bool.false_eq_true, if_false]
          refine ⟨rfl, ?_, ?_⟩
          · intro i x y hx hy
            match i, hy with
            | 0, hy => simp at hy
            | j + 1, hy => simp at hy
          · intro r x hr hx
            cases hr
            simp only [List.getLast?_singleton, Option.some.injEq] at hx
            exact ⟨hx ▸ he, hreq⟩

/-- A leaf (id 1) whose `e1` transition (label 43) targets its sibling
(id 2). -/
def c2Leaf : StateRec :=
  { activities := ⟨[]⟩,
    transitions := ⟨[(.e1, ⟨[⟨some alwaysTrueGuard, true, 43, some 2⟩],
      true, untriggeredResult⟩)]⟩,
    active := true }

/-- Root 0 with two sibling leaves 1 (current) and 2. -/
def hsm2 : HSMRec :=
  { stateMap := fun sid => if sid = 1 then c2Leaf else emptyStateRec,
    parent := fun sid =>
      if sid = 0 then none
      else if sid = 1 then some 0
      else if sid = 2 then some 0
      else none,
    current := 1,
    state_change_activities := ⟨[], false, untriggeredResult⟩ }

/-- C2 counterexample: dispatching `e1` triggers a transition (current
moves from 1 to 2), yet the next event dispatched by the loop is `e1`
again, NOT the synthetic Unnamed event — the dispatched-event sequence is
`[e1, e1]`, while the claim requires the second element to be Unnamed. -/
theorem hsm_dispatch_no_unnamed_after_transition_counterexample :
    (HSMRec.dispatch 5 5 hsm2 .e1).2.2.1 = [.e1, .e1] ∧
    (HSMRec.dispatch 5 5 hsm2 .e1).1.current = 2 ∧
    hsm2.current = 1 ∧
    (EventType.e1 : EventType) ≠ .unnamed := by
  refine ⟨rfl, rfl, rfl, by decide⟩

/-- Witness for the amended C2 at `hsm2`: the first dispatched event is
`e1`; the event following it in the sequence obeys the
same-event-unless-Enter rule; and the loop returned normally with its
last dispatch a non-Enter event requesting no transition. -/
theorem hsm_dispatch_loop_events_witness :
    (HSMRec.dispatch 5 5 hsm2 .e1).2.2.1[0]? = some .e1 ∧
    ((EventType.e1 : EventType) =
      if (EventType.e1 : EventType) = .enter then .unnamed else .e1) ∧
    ((EventType.e1 : EventType) ≠ .enter ∧
      (⟨⟨false, none⟩, ⟨false, none⟩⟩ : TAResult).was_transition_requested
        = false) :=
  ⟨(hsm_dispatch_loop_events 4 5 hsm2 .e1).1,
   (hsm_dispatch_loop_events 4 5 hsm2 .e1).2.1 0 .e1 .e1 (by decide)
     (by decide),
   (hsm_dispatch_loop_events 4 5 hsm2 .e1).2.2
     ⟨⟨false, none⟩, ⟨false, none⟩⟩ .e1 rfl (by decide)⟩

/-- The bubbling chain is never empty. -/
theorem parentChainUp_ne_nil (parent : Nat → Option Nat) (f s : Nat) :
    parentChainUp parent f s ≠ [] := by
  cases f with
  | zero => simp [parentChainUp]
  | succ f => cases hp : parent s <;> simp [parentChainUp, hp]

/-- If every state on the bubbling chain (which reaches a parentless
root) is locally silent on `e`, the bubbled dispatch returns a result
with neither an activity fired nor a transition requested. -/
theorem spe_chain_untriggered (m : HSMRec) (e : EventType) :
    ∀ (f sid : Nat),
      (∀ s ∈ parentChainUp m.parent f sid,
        (m.stateMap s).localUntriggered e = true) →
      (∀ s, (parentChainUp m.parent f sid).getLast? = some s →
        m.parent s = none) →
      ∃ tr r, simpleProcessEvent m (f + 1) sid e = (tr, .ok r) ∧
        r.did_act_or_requested_transition = false := by
  intro f
  induction f with
  | zero =>
    intro sid hall hlast
    have hl := hall sid (by simp [parentChainUp])
    rw [StateRec.localUntriggered] at hl
    rcases hp : (m.stateMap sid).process_event e with ⟨tr, res⟩
    rw [hp] at hl
    cases res with
    | error v => simp at hl
    | ok r =>
      simp only [Bool.not_eq_true'] at hl
      have hpar : m.parent sid = none := hlast sid (by simp [parentChainUp])
      refine ⟨tr, r, ?_, hl⟩
      rw [simpleProcessEvent]
      simp only [hp, hpar]
  | succ f ih =>
    intro sid hall hlast
    rcases hpp : m.parent sid with _ | p
    · have hl := hall sid (by simp [parentChainUp, hpp])
      rw [StateRec.localUntriggered] at hl
      rcases hp : (m.stateMap sid).process_event e with ⟨tr, res⟩
      rw [hp] at hl
      cases res with
      | error v => simp at hl
      | ok r =>
        simp only [Bool.not_eq_true'] at hl
        refine ⟨tr, r, ?_, hl⟩
        rw [simpleProcessEvent]
        simp only [hp, hpp]
    · have hchain : parentChainUp m.parent (f + 1) sid =
          sid :: parentChainUp m.parent f p := by
        simp [parentChainUp, hpp]
      have hl := hall sid (by rw [hchain]; simp)
      rw [StateRec.localUntriggered] at hl
      rcases hp : (m.stateMap sid).process_event e with ⟨tr, res⟩
      rw [hp] at hl
      cases res with
      | error v => simp at hl
      | ok r =>
        simp only [Bool.not_eq_true'] at hl
        have hall' : ∀ s ∈ parentChainUp m.parent f p,
            (m.stateMap s).localUntriggered e = true := by
          intro s hs
          exact hall s (by rw [hchain]; exact List.mem_cons_of_mem _ hs)
        have hlast' : ∀ s, (parentChainUp m.parent f p).getLast? = some s →
            m.parent s = none := by
          intro s hs
          apply hlast s
          rw [hchain]
          rcases hcp : parentChainUp m.parent f p with _ | ⟨y, t⟩
          · exact absurd hcp (parentChainUp_ne_nil m.parent f p)
          · rw [hcp] at hs
            rw [List.getLast?_cons_cons]
            exact hs
        obtain ⟨tr2, r2, h2, hd2⟩ := ih p hall' hlast'
        refine ⟨tr ++ tr2, r2, ?_, hd2⟩
        rw [simpleProcessEvent]
        simp only [hp, hpp, hl, Bool.not_false, h2, if_true]

/-- C8 (amended): for every event `e` other than the Enter event, if no
state along the bubbling chain from the current leaf to the (parentless)
root has a triggering transition or activity for `e`, `HSM.dispatch(e)`
performs a single dispatch of `e`, leaves the machine — `current` and
every state's active flag — unchanged, and returns an untriggered
result.  (For the Enter event the loop additionally probes with the
synthetic Unnamed event, which may trigger.) -/
theorem hsm_dispatch_unmatched_event_frame
    (m : HSMRec) (e : EventType) (lf pf : Nat)
    (hne : e ≠ .enter)
    (hchain : ∀ s ∈ parentChainUp m.parent pf m.current,
      (m.stateMap s).localUntriggered e = true)
    (hroot : ∀ s, (parentChainUp m.parent pf m.current).getLast? = some s →
      m.parent s = none) :
    ∃ tr r, HSMRec.dispatch (lf + 1) (pf + 1) m e = (m, tr, [e], .ok r) ∧
      r.transition.target = none ∧
      r.activity.handler_triggered = false := by
  obtain ⟨tr, r, hspe, hdart⟩ :=
    spe_chain_untriggered m e pf m.current hchain hroot
  simp only [TAResult.did_act_or_requested_transition,
    TAResult.was_transition_requested, TAResult.did_act,
    Bool.or_eq_false_iff] at hdart
  have htn : r.transition.target = none := by
    rcases ht : r.transition.target with _ | t
    · rfl
    · rw [ht] at hdart
      simp at hdart
  have hd : m.dipatch_to_current (pf + 1) e = (m, tr, .ok r) := by
    rw [HSMRec.dipatch_to_current]
    simp only [hspe, htn]
  refine ⟨tr, r, ?_, htn, hdart.2⟩
  rw [HSMRec.dispatch]
  simp only [hd, if_neg hne, hdart.1, htn]
  simp [TAResult.was_transition_requested, htn]

/-- A leaf (id 1) with an UNNAMED-keyed transition (label 51) to its
sibling (id 2) and no other handlers. -/
def c8Leaf : StateRec :=
  { activities := ⟨[]⟩,
    transitions := ⟨[(.unnamed, ⟨[⟨some alwaysTrueGuard, true, 51, some 2⟩],
      true, untriggeredResult⟩)]⟩,
    active := true }

/-- Root 0 with sibling leaves 1 (current, `c8Leaf`) and 2. -/
def hsm8 : HSMRec :=
  { stateMap := fun sid => if sid = 1 then c8Leaf else emptyStateRec,
    parent := fun sid =>
      if sid = 0 then none
      else if sid = 1 then some 0
      else if sid = 2 then some 0
      else none,
    current := 1,
    state_change_activities := ⟨[], false, untriggeredResult⟩ }

/-- C8 counterexample: no state along the bubbling chain has a triggering
transition or activity for the Enter event, yet `HSM.dispatch(Enter)`
moves `current` from 1 to 2, because after an Enter dispatch the loop
always probes with the synthetic Unnamed event and leaf 1's Unnamed
transition fires. -/
theorem hsm_dispatch_enter_probe_counterexample :
    (∀ s ∈ parentChainUp hsm8.parent 5 hsm8.current,
      (hsm8.stateMap s).localUntriggered .enter = true) ∧
    hsm8.current = 1 ∧
    (HSMRec.dispatch 5 5 hsm8 .enter).1.current = 2 := by
  refine ⟨by decide, rfl, rfl⟩

/-- Witness for the amended C8 at `hsm8` with the user event `e2`, which
no state handles: the machine is returned unchanged with an untriggered
result after the single dispatch. -/
theorem hsm_dispatch_unmatched_event_frame_witness :
    ∃ tr r, HSMRec.dispatch 5 5 hsm8 .e2 = (hsm8, tr, [.e2], .ok r) ∧
      r.transition.target = none ∧
      r.activity.handler_triggered = false :=
  hsm_dispatch_unmatched_event_frame hsm8 .e2 4 4 (by decide) (by decide)
    (by
      intro s hs
      rw [show (parentChainUp hsm8.parent 4 hsm8.current).getLast? =
        some 0 from rfl] at hs
      cases hs
      rfl)
